import Mathlib

/- Verification of the NCC forwarding subsystem of the WeChatRobot repository:
   the directory cache (sqlite tables managed by ncc/db_manager.py), the
   operator session state machine (ncc/ncc_manager.py), the Notion refresh
   path (ncc/notion_manager.py and robot.py), and the forward dispatch queue
   worker (NCCManager._process_forward_queue).

   The embedding is shallow: the sqlite tables become lists of rows, SQL
   queries become list comprehensions with a final deduplication where the
   python code builds a set, the operator-state dict becomes an association
   list with dict get / set / del semantics, and the side effects of handling
   one inbound message (replies sent, jobs enqueued, welcome-service calls)
   are threaded through an explicit manager state. -/

namespace WeChatRobot

/-! # Directory cache data model (ncc/db_manager.py, `_init_db`) -/

/-- One row of the `groups` table (db_manager.py lines 36-47). -/
structure Group where
  wxid : String
  name : String
  welcome_enabled : Bool
  allow_forward : Bool
  allow_speak : Bool
  welcome_url : Option String := none
deriving DecidableEq, Repr

instance : Inhabited Group :=
  ⟨{ wxid := "", name := "", welcome_enabled := false,
     allow_forward := false, allow_speak := false }⟩

/-- One row of the `forward_lists` table (db_manager.py lines 50-58). -/
structure ForwardListRow where
  list_id : Int
  list_name : String
  description : Option String := none
deriving DecidableEq, Repr

/-- One row of the `group_lists` membership table (db_manager.py lines 61-71). -/
structure GroupListRow where
  group_wxid : String
  list_id : Int
deriving DecidableEq, Repr

/-- One row of the `admins` table (db_manager.py lines 74-81). -/
structure AdminRow where
  wxid : String
  name : String
deriving DecidableEq, Repr

/-- The sqlite database contents relevant to the forwarding subsystem. -/
structure Db where
  groups : List Group
  forward_lists : List ForwardListRow
  group_lists : List GroupListRow
  admins : List AdminRow
deriving DecidableEq, Repr

/-! # SQL queries of the resolution step (ncc_manager.py lines 208-235) and
     of db_manager.py -/

/-- Row output of
    `SELECT g.wxid FROM groups g JOIN group_lists gl ON g.wxid = gl.group_wxid
     WHERE g.allow_forward = 1`
    before `DISTINCT`: one wxid per matching (group, membership) pair.
    This is the "all groups" branch of `_handle_forward_state`
    (ncc_manager.py lines 219-225); note the inner join with `group_lists`. -/
def Db.allGroupsJoinRows (db : Db) : List String :=
  db.groups.flatMap fun g =>
    db.group_lists.filterMap fun gl =>
      if gl.group_wxid = g.wxid ∧ g.allow_forward = true then some g.wxid else none

/-- Row output of the multi-list branch
    `... WHERE gl.list_id IN (...) AND g.allow_forward = 1`
    (ncc_manager.py lines 226-234). -/
def Db.listGroupsJoinRows (db : Db) (listIds : List Int) : List String :=
  db.groups.flatMap fun g =>
    db.group_lists.filterMap fun gl =>
      if gl.group_wxid = g.wxid ∧ gl.list_id ∈ listIds ∧ g.allow_forward = true then
        some g.wxid
      else none

/-- Raw row output of the resolution step of the `WAITING_CHOICE` state
    (ncc_manager.py lines 216-235): if the parsed selection contains the
    token 1 ("all groups") the all-groups query runs, otherwise the
    list-membership query runs. -/
def Db.resolveRows (db : Db) (listIds : List Int) : List String :=
  if (1 : Int) ∈ listIds then db.allGroupsJoinRows else db.listGroupsJoinRows listIds

/-- The deduplicated "all groups" result set, as the python set comprehension
    `{row[0] for row in cur.fetchall()}` builds it. -/
def Db.resolveAllGroups (db : Db) : Finset String :=
  db.allGroupsJoinRows.toFinset

/-- The deduplicated result set of the `WAITING_CHOICE` resolution. -/
def Db.resolveSelection (db : Db) (listIds : List Int) : Finset String :=
  (db.resolveRows listIds).toFinset

/-- `DatabaseManager.get_groups_by_list_id` (db_manager.py lines 199-209):
    `SELECT g.wxid FROM groups g JOIN group_lists gl ON g.wxid = gl.group_wxid
     WHERE gl.list_id = ?` -- note there is no `allow_forward` filter here. -/
def Db.get_groups_by_list_id (db : Db) (listId : Int) : List String :=
  db.groups.flatMap fun g =>
    db.group_lists.filterMap fun gl =>
      if gl.group_wxid = g.wxid ∧ gl.list_id = listId then some g.wxid else none

/-- `DatabaseManager.get_admin_wxids` (db_manager.py lines 211-216). -/
def Db.get_admin_wxids (db : Db) : List String :=
  db.admins.map AdminRow.wxid

/-- `DatabaseManager.get_admin_names` (db_manager.py lines 218-223). -/
def Db.get_admin_names (db : Db) : List String :=
  db.admins.map AdminRow.name

/-- `DatabaseManager.get_welcome_enabled_groups` (db_manager.py
    lines 225-241). -/
def Db.get_welcome_enabled_groups (db : Db) : List Group :=
  db.groups.filter fun g => g.welcome_enabled

/-- `DatabaseManager.get_speak_enabled_groups` (db_manager.py
    lines 327-345). -/
def Db.get_speak_enabled_groups (db : Db) : List Group :=
  db.groups.filter fun g => g.allow_speak

/-! # Spec-side definitions, used to compare the code's behaviour against the
     specification's words for the refinement claims -/

/-- Modelled from the spec: `allForwardableGroups()` as section 3 words it,
    the deduplicated set of every group flagged allow_forward, with no
    condition on list membership. -/
def Db.specAllForwardableGroups (db : Db) : Finset String :=
  ((db.groups.filter fun g => g.allow_forward).map Group.wxid).toFinset

/-- Modelled from the spec: `groupsForList(list_id)` as section 4.1 words it,
    the set of member groups of the list that have allow_forward set. -/
def Db.specGroupsForList (db : Db) (listId : Int) : Finset String :=
  ((db.groups.filter fun g =>
      g.allow_forward &&
        db.group_lists.any fun gl => gl.group_wxid == g.wxid && gl.list_id == listId).map
    Group.wxid).toFinset

/-! # Selection-token parsing (ncc_manager.py line 211)

These helpers work on the character list of the string so that every
definition evaluates inside the kernel. -/

/-- ASCII whitespace, as python `str.strip` removes it. -/
def isPyWs (c : Char) : Bool :=
  c = ' ' || c = '\t' || c = '\n' || c = '\x0d' || c = '\x0b' || c = '\x0c'

/-- Python `str.strip()` on the character list. -/
def trimChars (cs : List Char) : List Char :=
  ((cs.dropWhile isPyWs).reverse.dropWhile isPyWs).reverse

/-- A nonempty all-digit character list read as a decimal number. -/
def decDigits (cs : List Char) : Option Nat :=
  if cs ≠ [] ∧ cs.all Char.isDigit then
    some (cs.foldl (fun n c => n * 10 + (c.toNat - 48)) 0)
  else none

/-- Python `int(s)` restricted to ASCII decimal literals: surrounding
    whitespace stripped, one optional sign, then digits. -/
def pyIntChars (cs : List Char) : Option Int :=
  match trimChars cs with
  | '+' :: ds => (decDigits ds).map Int.ofNat
  | '-' :: ds => (decDigits ds).map fun n => -(n : Int)
  | ds => (decDigits ds).map Int.ofNat

/-- Python `int(s)` on a string. -/
def pyInt (s : String) : Option Int :=
  pyIntChars s.data

/-- Python `str.split("+")`: split at every '+', keeping empty pieces. -/
def splitPlus : List Char → List (List Char)
  | [] => [[]]
  | c :: rest =>
    match splitPlus rest with
    | [] => [[c]]
    | t :: ts => if c = '+' then [] :: t :: ts else (c :: t) :: ts

/-- `[int(list_id.strip()) for list_id in msg.content.split("+")]`, with
    `ValueError` as `none` (ncc_manager.py lines 210-211, 252-254). -/
def parseListIds (content : String) : Option (List Int) :=
  (splitPlus content.data).mapM pyIntChars

/-- ASCII lower-casing of one character, for `str.lower()`. -/
def lowerChar (c : Char) : Char :=
  if 'A' ≤ c ∧ c ≤ 'Z' then Char.ofNat (c.toNat + 32) else c

/-- Python `msg.content.lower().strip()` as the entry check computes it
    (ncc_manager.py line 82), for ASCII content. -/
def lowerStrip (s : String) : String :=
  String.mk (trimChars (s.data.map lowerChar))

/-! # Notion refresh (ncc/notion_manager.py lines 71-107, robot.py
     lines 514-527)

`NotionManager.fetch_notion_data` queries the three Notion databases and, on
success, overwrites the local cache file `data/notion_cache.json` wholesale
and returns `True`; any exception from the queries is caught before the file
is written, logged, and turned into `False`. The external source is modelled
as an `Except` value: `.error` stands for a source that throws. -/

/-- The raw payload `fetch_notion_data` caches: the unprocessed page lists of
    the lists / groups / admins Notion databases. -/
structure NotionData where
  lists : List String
  groups : List String
  admins : List String
deriving DecidableEq, Repr

/-- The state `Robot.sync_data_from_notion` touches: the sqlite database, the
    local Notion cache file, and the in-memory allowed-groups list. -/
structure Robot where
  db : Db
  notion_cache : Option NotionData
  allowed_groups : List String
deriving DecidableEq, Repr

/-- `NotionManager.fetch_notion_data` (notion_manager.py lines 71-107):
    on a successful source read the cache file is replaced wholesale and the
    call returns `True`; a throwing source is caught before anything is
    written and the call returns `False`. -/
def Robot.fetch_notion_data (r : Robot) (source : Except String NotionData) :
    Bool × Robot :=
  match source with
  | .ok d => (true, { r with notion_cache := some d })
  | .error _ => (false, r)

/-- `Robot.sync_data_from_notion` (robot.py lines 514-527): runs
    `fetch_notion_data` ignoring its boolean result, then recomputes the
    in-memory allowed-groups list from the (unchanged) sqlite database. -/
def Robot.sync_data_from_notion (r : Robot) (source : Except String NotionData) :
    Robot :=
  let fetched := r.fetch_notion_data source
  { fetched.2 with
    allowed_groups := fetched.2.db.get_speak_enabled_groups.map Group.wxid }

/-- The spec's `isAdmin`: membership of the admins table, as the entry check
    `msg.sender in self.db.get_admin_wxids()` reads it
    (ncc_manager.py lines 83-84). -/
def Robot.isAdmin (r : Robot) (w : String) : Bool :=
  r.db.get_admin_wxids.contains w

/-! # Operator session state machine (ncc/ncc_manager.py) -/

/-- `ForwardState` (ncc_manager.py lines 20-27). `WAITING_CHOICE_MODE` is the
    root menu, `WAITING_MESSAGE` the collecting state, `WAITING_CHOICE` the
    selecting state. -/
inductive ForwardState where
  | idle
  | waiting_choice_mode
  | waiting_message
  | waiting_choice
  | waiting_welcome_manage
  | waiting_welcome_group_choice
  | waiting_welcome_collecting
deriving DecidableEq, Repr

/-- One inbound WeChat message, with the fields the subsystem reads:
    transport id, sender wxid, text content, numeric type tag (1 text,
    3 image, 49 merged-forward), and the `extra` payload. -/
structure WxMsg where
  id : Nat
  sender : String
  content : String
  mtype : Nat
  extra : String := ""
deriving DecidableEq, Repr

/-- `OperatorState` (ncc_manager.py lines 29-39): the per-operator session
    record. -/
structure OperatorState where
  state : ForwardState := .idle
  list_id : Option Int := none
  messages : List WxMsg := []
  current_group : Option String := none
deriving DecidableEq, Repr

instance : Inhabited OperatorState := ⟨{}⟩

/-- One entry of the forward dispatch queue: the tuple
    `(operator_state.messages, list(groups), msg.sender)` put on
    `self.forward_queue` (ncc_manager.py line 247). -/
structure ForwardTask where
  messages : List WxMsg
  groups : List String
  operator_id : String
deriving DecidableEq, Repr

/-- Whole-manager state: the robot's stores, the operator-state dict, the
    forward queue contents, the outbound text replies in send order, and the
    welcome-service calls made (saves and show-current requests). -/
structure NCC where
  robot : Robot
  operator_states : List (String × OperatorState)
  forward_queue : List ForwardTask
  replies : List (String × String)
  welcome_saves : List (Option String × List WxMsg × String)
  welcome_shows : List (Option String × String)
deriving DecidableEq, Repr

/-- Outcome of the `wcf.download_image` call for an image message
    (ncc_manager.py lines 186-204): downloaded fine, returned no file,
    raised `TimeoutError`, or raised another exception. -/
inductive DlOutcome where
  | ok
  | failed
  | timeout
  | exn
deriving DecidableEq, Repr

/-- Outcome of the external collaborators consulted while handling one
    inbound message: the image download and the Notion directory source. -/
structure Env where
  dl : DlOutcome
  source : Except String NotionData

/-! ## Dict operations on the operator-state map

`self.operator_states` is a python dict keyed by operator wxid; it is
modelled as an association list, with `lookupOp` for `dict.get`, `setOp` for
item assignment (replace the existing binding or append a new one), and
`delOp` for `del` (remove the binding). -/

/-- `self.operator_states.get(key)`. -/
def lookupOp : List (String × OperatorState) → String → Option OperatorState
  | [], _ => none
  | (k, v) :: rest, key => if k = key then some v else lookupOp rest key

/-- `self.operator_states[key] = v`. -/
def setOp : List (String × OperatorState) → String → OperatorState →
    List (String × OperatorState)
  | [], key, v => [(key, v)]
  | (k, w) :: rest, key, v =>
    if k = key then (key, v) :: rest else (k, w) :: setOp rest key v

/-- `del self.operator_states[key]`. -/
def delOp : List (String × OperatorState) → String → List (String × OperatorState)
  | [], _ => []
  | (k, w) :: rest, key => if k = key then rest else (k, w) :: delOp rest key

/-- The dict invariant: each operator key is bound at most once. -/
def keysNodup (sts : List (String × OperatorState)) : Prop :=
  (sts.map Prod.fst).Nodup

/-! ## Replies and session plumbing -/

/-- `sendTextMsg` (ncc_manager.py lines 345-347): record one outbound text
    with its receiver. -/
def NCC.sendTextMsg (st : NCC) (text receiver : String) : NCC :=
  { st with replies := st.replies ++ [(text, receiver)] }

/-- `_reset_operator_state` (ncc_manager.py lines 340-343). -/
def NCC.resetOperatorState (st : NCC) (operator_id : String) : NCC :=
  { st with operator_states := delOp st.operator_states operator_id }

/-- The root menu text `_send_menu` sends (ncc_manager.py lines 66-78). -/
def menuText : String :=
  "NCC社群管理：\n请回复指定数字\n1 👈 转发消息\n2 👈 同步 Notion 更改\n3 👈 查看 Notion 后台\n4 👈 查看团队成员\n5 👈 迎新消息管理\n0 👈 退出管理模式"

/-- The welcome-management menu `welcome_service.show_menu` sends
    (welcome_service.py lines 119-127). -/
def welcomeMenuText : String :=
  "迎新消息管理：\n1 👈 查看当前迎新消息\n2 👈 设置新的迎新消息\n0 👈 退出"

/-- The list of welcome-enabled groups rendered for the operator
    (ncc_manager.py lines 118-122). -/
def renderWelcomeGroups (groups : List Group) : String :=
  "所有开启迎新推送的群聊列表：\n（迎新消息开关请在Notion的群管理页面操作）\n\n"
    ++ String.join ((List.enumFrom 1 groups).map fun p =>
         toString p.1 ++ " 👈 " ++ p.2.name ++ "\n")
    ++ "\n请回复数字选择要管理的群聊，回复0退出"

/-- The forward-list selection menu rendered after "proceed"
    (ncc_manager.py lines 171-181); `n` is the collected-message count and
    the lists arrive ordered by list_id (`ORDER BY list_id`). -/
def renderForwardLists (n : Nat) (lists : List ForwardListRow) : String :=
  "已收集 " ++ toString n
    ++ " 条消息\n请选择想要转发的分组编号项（支持多选，如：1+2+3），按0退出：\n\n"
    ++ "1 👈 所有群聊\n"
    ++ String.join (lists.map fun l =>
         toString l.list_id ++ " 👈 " ++ l.list_name
           ++ (match l.description with
               | some d => if d = "" then "" else " （" ++ d ++ "）"
               | none => "")
           ++ "\n")

/-! ## The per-state handlers of `_handle_forward_state` -/

/-- Appending one collected message and acknowledging the running count
    (ncc_manager.py lines 194-197). -/
def appendCollected (st : NCC) (m : WxMsg) (s : OperatorState) : Bool × NCC :=
  let s1 := { s with messages := s.messages ++ [m] }
  let st1 := { st with operator_states := setOp st.operator_states m.sender s1 }
  (true, st1.sendTextMsg
    ("已收集 " ++ toString s1.messages.length ++ " 条消息，继续发送或者回复【1】选择群聊")
    m.sender)

/-- The `WAITING_CHOICE_MODE` (root menu) branch
    (ncc_manager.py lines 108-146). -/
def handleChoiceMode (st : NCC) (env : Env) (m : WxMsg) (s : OperatorState) :
    Bool × NCC :=
  if m.content = "5" then
    let sts1 := setOp st.operator_states m.sender
      { s with state := .waiting_welcome_group_choice }
    let st1 := { st with operator_states := sts1 }
    let groups := st1.robot.db.get_welcome_enabled_groups
    if groups = [] then
      let st2 := st1.sendTextMsg
        "未找到启用迎新推送的群组，请先在Notion的群管理页面开启迎新推送开关" m.sender
      (true, st2.resetOperatorState m.sender)
    else
      (true, st1.sendTextMsg (renderWelcomeGroups groups) m.sender)
  else if m.content = "2" then
    let st1 := { st with robot := st.robot.sync_data_from_notion env.source }
    let st2 := st1.sendTextMsg "同步成功，请选择操作" m.sender
    (true, st2.sendTextMsg menuText m.sender)
  else if m.content = "1" then
    let sts1 := setOp st.operator_states m.sender
      { s with state := .waiting_message, messages := [] }
    let st1 := { st with operator_states := sts1 }
    (true, st1.sendTextMsg
      "请发送需要转发的内容，支持公众号、推文、视频号、文字、图片、合并消息，一个一个来\n发送【1】进入下一步\n随时发送【0】退出转发模式"
      m.sender)
  else if m.content = "3" then
    (true, st.sendTextMsg
      "列表信息，请登陆查看：https://www.notion.so/bigsong/NCC-1564e93f5682805d9a2ff0519c24738b?pvs=4"
      m.sender)
  else if m.content = "4" then
    (true, st.sendTextMsg
      ("成员：\n" ++ String.intercalate "\n"
        (st.robot.db.get_admin_names.map fun n => "👤 " ++ n))
      m.sender)
  else
    (true, st.sendTextMsg "请输入有效的选项，或发送【0】退出转发模式" m.sender)

/-- The `WAITING_MESSAGE` (collecting) branch
    (ncc_manager.py lines 149-205). -/
def handleCollecting (st : NCC) (env : Env) (m : WxMsg) (s : OperatorState) :
    Bool × NCC :=
  if m.content = "1" then
    if s.messages = [] then
      (true, st.sendTextMsg "还未收集到任何消息，请先发送需要转发的内容" m.sender)
    else
      let sts1 := setOp st.operator_states m.sender { s with state := .waiting_choice }
      let st1 := { st with operator_states := sts1 }
      let lists : List ForwardListRow :=
        List.insertionSort (fun a b => a.list_id ≤ b.list_id)
          st1.robot.db.forward_lists
      if lists = [] then
        let st2 := st1.sendTextMsg "未找到可用的转发列表，请先使用【刷新列表】更新数据" m.sender
        (true, st2.resetOperatorState m.sender)
      else
        (true, st1.sendTextMsg (renderForwardLists s.messages.length lists) m.sender)
  else
    if m.mtype = 3 then
      let st1 := st.sendTextMsg "检测到图片消息，原图上传有点慢，等会儿，好了叫你" m.sender
      match env.dl with
      | .failed => (true, st1.sendTextMsg "图片下载失败，请检查图片是否正常" m.sender)
      | .timeout => (true, st1.sendTextMsg "图片下载超时，请稍后重试" m.sender)
      | .exn => (true, st1.sendTextMsg "消息收集异常，请联系管理员" m.sender)
      | .ok => appendCollected st1 m s
    else
      appendCollected st m s

/-- The `WAITING_CHOICE` (selecting) branch
    (ncc_manager.py lines 208-254). -/
def handleSelecting (st : NCC) (m : WxMsg) (s : OperatorState) : Bool × NCC :=
  match parseListIds m.content with
  | none =>
    (true, st.sendTextMsg "请输入有效的选项（支持多选，如：1+2+3），或发送【0】退出转发模式" m.sender)
  | some list_ids =>
    if s.messages = [] then (true, st)
    else
      let groups := (st.robot.db.resolveRows list_ids).dedup
      if groups = [] then
        (true, st.sendTextMsg "未找到任何可转发的群组，请重新选择，或发送【0】退出转发模式" m.sender)
      else
        let st1 := st.sendTextMsg
          ("开始转发 " ++ toString s.messages.length ++ " 条消息到 "
            ++ toString groups.length
            ++ " 个群...\n为避免风控，将会添加随机延迟，请耐心等待...")
          m.sender
        let task : ForwardTask := { messages := s.messages, groups := groups,
                                    operator_id := m.sender }
        let st2 := { st1 with forward_queue := st1.forward_queue ++ [task] }
        (true, st2.resetOperatorState m.sender)

/-- The `WELCOME_GROUP_CHOICE` branch (ncc_manager.py lines 256-276). -/
def handleWelcomeGroupChoice (st : NCC) (m : WxMsg) (s : OperatorState) :
    Bool × NCC :=
  match pyInt m.content with
  | none => (true, st.sendTextMsg "请输入有效的数字" m.sender)
  | some choice =>
    if choice = 0 then
      let st1 := st.resetOperatorState m.sender
      (true, st1.sendTextMsg "已退出迎新消息管理" m.sender)
    else
      let groups := st.robot.db.get_welcome_enabled_groups
      if 1 ≤ choice ∧ choice ≤ (groups.length : Int) then
        let group := groups.getD (choice - 1).toNat default
        let s1 := { s with current_group := some group.wxid,
                           state := .waiting_welcome_manage }
        let st1 := { st with operator_states := setOp st.operator_states m.sender s1 }
        (true, st1.sendTextMsg welcomeMenuText m.sender)
      else
        (true, st.sendTextMsg "无效的选择，请重新输入" m.sender)

/-- The `WELCOME_MANAGE` branch (ncc_manager.py lines 278-298). The
    show-current-messages action is an external welcome-service read; the
    call is recorded in `welcome_shows`. -/
def handleWelcomeManage (st : NCC) (m : WxMsg) (s : OperatorState) : Bool × NCC :=
  match pyInt m.content with
  | none => (true, st.sendTextMsg "请输入有效的数字。退出请回复0" m.sender)
  | some choice =>
    if choice = 0 then
      let st1 := st.resetOperatorState m.sender
      (true, st1.sendTextMsg "已退出迎新消息管理" m.sender)
    else if choice = 1 then
      let shows1 := st.welcome_shows ++ [(s.current_group, m.sender)]
      (true, { st with welcome_shows := shows1 })
    else if choice = 2 then
      let s1 := { s with state := .waiting_welcome_collecting, messages := [] }
      let st1 := { st with operator_states := setOp st.operator_states m.sender s1 }
      (true, st1.sendTextMsg "请发送新的迎新消息，发送完成后回复数字1" m.sender)
    else
      (true, st.sendTextMsg "无效的选择，请重新输入。退出请回复0" m.sender)

/-- The `WELCOME_COLLECTING` branch (ncc_manager.py lines 300-316). The save
    is `welcome_service.save_messages`, recorded in `welcome_saves` together
    with its confirmation reply (welcome_service.py line 182). -/
def handleWelcomeCollecting (st : NCC) (m : WxMsg) (s : OperatorState) :
    Bool × NCC :=
  if m.content = "1" then
    if s.messages = [] then
      (true, st.sendTextMsg "未收到任何消息，请重新发送，退出请回复0" m.sender)
    else
      let saves1 := st.welcome_saves ++ [(s.current_group, s.messages, m.sender)]
      let st1 := { st with welcome_saves := saves1 }
      let st2 := st1.sendTextMsg "✅ 迎新消息设置成功！" m.sender
      (true, st2.resetOperatorState m.sender)
  else
    let s1 := { s with messages := s.messages ++ [m] }
    let st1 := { st with operator_states := setOp st.operator_states m.sender s1 }
    (true, st1.sendTextMsg
      ("✅ 已收集 " ++ toString s1.messages.length ++ " 条消息，继续发送或回复数字1完成设置")
      m.sender)

/-- `_handle_forward_state` (ncc_manager.py lines 100-318): the universal "0"
    exit first, then the per-state dispatch. -/
def handleForwardState (st : NCC) (env : Env) (m : WxMsg) (s : OperatorState) :
    Bool × NCC :=
  if m.content = "0" then
    let st1 := st.resetOperatorState m.sender
    (true, st1.sendTextMsg "已退出管理模式" m.sender)
  else
    match s.state with
    | .waiting_choice_mode => handleChoiceMode st env m s
    | .waiting_message => handleCollecting st env m s
    | .waiting_choice => handleSelecting st m s
    | .waiting_welcome_group_choice => handleWelcomeGroupChoice st m s
    | .waiting_welcome_manage => handleWelcomeManage st m s
    | .waiting_welcome_collecting => handleWelcomeCollecting st m s
    | .idle => (false, st)

/-- `NCCManager.handle_message` (ncc_manager.py lines 80-98): the entry
    keyword check (case-insensitive, stripped) with the admin gate, then the
    dispatch to `_handle_forward_state` for operators with a non-idle
    session. -/
def handle_message (st : NCC) (env : Env) (m : WxMsg) : Bool × NCC :=
  if lowerStrip m.content = "ncc" then
    if st.robot.db.get_admin_wxids.contains m.sender then
      let s := (lookupOp st.operator_states m.sender).getD {}
      let s1 := { s with state := ForwardState.waiting_choice_mode }
      let st1 := { st with operator_states := setOp st.operator_states m.sender s1 }
      (true, st1.sendTextMsg menuText m.sender)
    else
      (false, st.sendTextMsg "对不起，你未开通ncc管理权限，私聊大松获取。" m.sender)
  else
    match lookupOp st.operator_states m.sender with
    | some s => if s.state ≠ .idle then handleForwardState st env m s else (false, st)
    | none => (false, st)

/-- One intake step: handle one inbound message with its external-world
    outcomes, keeping the resulting manager state. -/
def stepM (st : NCC) (ev : Env × WxMsg) : NCC :=
  (handle_message st ev.1 ev.2).2

/-- Run a whole inbound message sequence. -/
def runNCC (st : NCC) (events : List (Env × WxMsg)) : NCC :=
  events.foldl stepM st

/-- The manager state right after `NCCManager.__init__`: empty operator-state
    dict, empty queue, nothing sent yet. -/
def initNCC (r : Robot) : NCC :=
  { robot := r, operator_states := [], forward_queue := [], replies := [],
    welcome_saves := [], welcome_shows := [] }

/-! # Forward dispatch worker (`_process_forward_queue`,
     ncc_manager.py lines 349-438)

The Delivery Adapter is modelled as an oracle
`deliver : group wxid → message id → attempt index → Bool`; `false` covers
both a falsy `_forward_message` result and an exception from it, since the
worker treats them alike (count the retry, wait, try again). The pacing
sleeps have no observable effect in the embedding and are omitted. -/

/-- `MAX_RETRIES` (ncc_manager.py line 351). -/
def MAX_RETRIES : Nat := 3

/-- The retry loop for one (group, message) pair
    (ncc_manager.py lines 381-398): attempt while `retries < MAX_RETRIES`
    and not yet successful. Returns the success flag and the attempt indices
    used, in order. -/
def sendWithRetries (deliver : Nat → Bool) : Nat → Nat → Bool × List Nat
  | 0, _ => (false, [])
  | budget + 1, idx =>
    if deliver idx then (true, [idx])
    else
      let r := sendWithRetries deliver budget (idx + 1)
      (r.1, idx :: r.2)

/-- One entry of a group's failed-message record
    (ncc_manager.py lines 402-406). -/
structure PairFailure where
  msg_id : Nat
  msg_type : Nat
deriving DecidableEq, Repr

/-- One entry of the job's failure breakdown (ncc_manager.py lines 411-415). -/
structure GroupFailure where
  group : String
  failures : List PairFailure
deriving DecidableEq, Repr

/-- What one processed job yields: the success / failure counters, the
    failure breakdown the summary is rendered from, and the full trace of
    Delivery Adapter invocations as (group, message id, attempt index)
    triples in call order. -/
structure DispatchResult where
  success_count : Nat
  failed_count : Nat
  failed_messages : List GroupFailure
  calls : List (String × Nat × Nat)
deriving DecidableEq, Repr

/-- The inner message loop for one group (ncc_manager.py lines 380-409):
    returns (successes, failures, this group's failed messages, calls). -/
def processGroup (deliver : String → Nat → Nat → Bool) (g : String) :
    List WxMsg → Nat × Nat × List PairFailure × List (String × Nat × Nat)
  | [] => (0, 0, [], [])
  | m :: rest =>
    let a := sendWithRetries (deliver g m.id) MAX_RETRIES 0
    let callsHere := a.2.map fun idx => (g, m.id, idx)
    let t := processGroup deliver g rest
    if a.1 then (t.1 + 1, t.2.1, t.2.2.1, callsHere ++ t.2.2.2)
    else (t.1, t.2.1 + 1, ⟨m.id, m.mtype⟩ :: t.2.2.1, callsHere ++ t.2.2.2)

/-- The outer group loop (ncc_manager.py lines 369-417): a group contributes
    a failure-breakdown entry only if at least one of its messages failed. -/
def processTaskGroups (deliver : String → Nat → Nat → Bool) (messages : List WxMsg) :
    List String → Nat × Nat × List GroupFailure × List (String × Nat × Nat)
  | [] => (0, 0, [], [])
  | g :: rest =>
    let a := processGroup deliver g messages
    let t := processTaskGroups deliver messages rest
    (a.1 + t.1, a.2.1 + t.2.1,
      (if a.2.2.1 = [] then t.2.2.1 else ⟨g, a.2.2.1⟩ :: t.2.2.1),
      a.2.2.2 ++ t.2.2.2)

/-- Processing one dequeued forward task end to end. -/
def processTask (deliver : String → Nat → Nat → Bool) (task : ForwardTask) :
    DispatchResult :=
  let t := processTaskGroups deliver task.messages task.groups
  ⟨t.1, t.2.1, t.2.2.1, t.2.2.2⟩

/-! # Concrete states for counterexamples and witnesses -/

/-- Counterexample state for C1: one group flagged allow_forward that is a
    member of no forward list. -/
def dbC1 : Db :=
  { groups := [{ wxid := "g1", name := "G1", welcome_enabled := false,
                 allow_forward := true, allow_speak := false }],
    forward_lists := [],
    group_lists := [],
    admins := [] }

/-- Counterexample state for C2: a forwardable group that is a member only of
    list 3, while lists 1 and 2 have no members. -/
def dbC2 : Db :=
  { groups := [{ wxid := "g3", name := "G3", welcome_enabled := false,
                 allow_forward := true, allow_speak := false }],
    forward_lists := [{ list_id := 2, list_name := "L2" },
                      { list_id := 3, list_name := "L3" }],
    group_lists := [{ group_wxid := "g3", list_id := 3 }],
    admins := [] }

/-- Counterexample state for C3: a group with allow_forward unset that is a
    member of list 2. -/
def dbC3 : Db :=
  { groups := [{ wxid := "g0", name := "G0", welcome_enabled := false,
                 allow_forward := false, allow_speak := false }],
    forward_lists := [{ list_id := 2, list_name := "L2" }],
    group_lists := [{ group_wxid := "g0", list_id := 2 }],
    admins := [] }

/-- Witness state: a forwardable group on a list, a forwardable group off
    every list, a non-forwardable group on a list, and one admin. -/
def dbW : Db :=
  { groups :=
      [{ wxid := "gw", name := "GW", welcome_enabled := false,
         allow_forward := true, allow_speak := false },
       { wxid := "g1", name := "G1", welcome_enabled := true,
         allow_forward := true, allow_speak := false },
       { wxid := "g2", name := "G2", welcome_enabled := false,
         allow_forward := false, allow_speak := true }],
    forward_lists := [{ list_id := 2, list_name := "L2" }],
    group_lists := [{ group_wxid := "gw", list_id := 2 },
                    { group_wxid := "g2", list_id := 2 }],
    admins := [{ wxid := "op1", name := "A1" }] }

/-- Witness robot around `dbW`. -/
def robotW : Robot :=
  { db := dbW, notion_cache := none, allowed_groups := [] }

/-- A message from the admin operator `op1` with the given content. -/
def msgW (c : String) : WxMsg :=
  { id := 11, sender := "op1", content := c, mtype := 1 }

/-- Environment whose external calls all succeed. -/
def envOk : Env :=
  { dl := .ok, source := .ok { lists := [], groups := [], admins := [] } }

/-- Environment whose Notion source throws. -/
def envErr : Env :=
  { dl := .ok, source := .error "notion api error" }

/-- Witness manager state: operator `op1` at the root menu. -/
def stMenu : NCC :=
  { robot := robotW,
    operator_states := [("op1", { state := .waiting_choice_mode })],
    forward_queue := [], replies := [], welcome_saves := [], welcome_shows := [] }

/-- Witness manager state: operator `op1` collecting, nothing collected. -/
def stCollect0 : NCC :=
  { robot := robotW,
    operator_states := [("op1", { state := .waiting_message })],
    forward_queue := [], replies := [], welcome_saves := [], welcome_shows := [] }

/-- Witness manager state: operator `op1` collecting, one message collected. -/
def stCollect1 : NCC :=
  { robot := robotW,
    operator_states := [("op1", { state := .waiting_message, messages := [msgW "hello"] })],
    forward_queue := [], replies := [], welcome_saves := [], welcome_shows := [] }

end WeChatRobot

namespace WeChatRobot

/-! # Theorems -/

/-! ## Dict-operation lemmas -/

theorem lookupOp_setOp_self (sts : List (String × OperatorState)) (k : String)
    (v : OperatorState) : lookupOp (setOp sts k v) k = some v := by
  induction sts with
  | nil => simp [setOp, lookupOp]
  | cons a rest ih =>
    by_cases h : a.1 = k
    · simp [setOp, h, lookupOp]
    · simp [setOp, h, lookupOp, ih]

theorem keys_setOp_mem (sts : List (String × OperatorState)) (k x : String)
    (v : OperatorState) (hx : x ∈ (setOp sts k v).map Prod.fst) :
    x ∈ sts.map Prod.fst ∨ x = k := by
  induction sts with
  | nil => simp [setOp] at hx; exact Or.inr hx
  | cons a rest ih =>
    by_cases h : a.1 = k
    · simp [setOp, h] at hx
      rcases hx with hx | hx
      · exact Or.inr hx
      · exact Or.inl (by simp [hx])
    · simp [setOp, h] at hx
      rcases hx with hx | hx
      · exact Or.inl (by simp [hx])
      · rcases ih (by simpa using hx) with h2 | h2
        · exact Or.inl (by simp [h2])
        · exact Or.inr h2

theorem keysNodup_setOp (sts : List (String × OperatorState)) (k : String)
    (v : OperatorState) (h : keysNodup sts) : keysNodup (setOp sts k v) := by
  induction sts with
  | nil => simp [keysNodup, setOp]
  | cons a rest ih =>
    simp only [keysNodup, List.map_cons, List.nodup_cons] at h
    by_cases hk : a.1 = k
    · simp only [setOp, if_pos hk, keysNodup, List.map_cons, List.nodup_cons]
      exact ⟨by rw [← hk]; exact h.1, h.2⟩
    · simp only [setOp, if_neg hk, keysNodup, List.map_cons, List.nodup_cons]
      refine ⟨fun hmem => ?_, ih h.2⟩
      rcases keys_setOp_mem rest k a.1 v hmem with h2 | h2
      · exact h.1 h2
      · exact hk h2

theorem delOp_sublist (sts : List (String × OperatorState)) (k : String) :
    (delOp sts k).Sublist sts := by
  induction sts with
  | nil => simp [delOp]
  | cons a rest ih =>
    by_cases h : a.1 = k
    · simp only [delOp, if_pos h]
      exact (List.sublist_cons_self a rest)
    · simp only [delOp, if_neg h]
      exact ih.cons₂ a

theorem keysNodup_delOp (sts : List (String × OperatorState)) (k : String)
    (h : keysNodup sts) : keysNodup (delOp sts k) :=
  ((delOp_sublist sts k).map Prod.fst).nodup h

theorem lookupOp_eq_none (sts : List (String × OperatorState)) (k : String)
    (h : k ∉ sts.map Prod.fst) : lookupOp sts k = none := by
  induction sts with
  | nil => rfl
  | cons a rest ih =>
    simp only [List.map_cons, List.mem_cons, not_or] at h
    have hne : ¬(a.1 = k) := fun he => h.1 he.symm
    simp only [lookupOp, if_neg hne]
    exact ih h.2

theorem lookupOp_delOp_self (sts : List (String × OperatorState)) (k : String)
    (h : keysNodup sts) : lookupOp (delOp sts k) k = none := by
  induction sts with
  | nil => rfl
  | cons a rest ih =>
    simp only [keysNodup, List.map_cons, List.nodup_cons] at h
    by_cases hk : a.1 = k
    · simp only [delOp, if_pos hk]
      exact lookupOp_eq_none rest k (by rw [← hk]; exact h.1)
    · simp only [delOp, if_neg hk, lookupOp, if_neg hk]
      exact ih h.2

theorem lookupOp_mem_keys (sts : List (String × OperatorState)) (k : String)
    (v : OperatorState) (h : lookupOp sts k = some v) : k ∈ sts.map Prod.fst := by
  induction sts with
  | nil => exact absurd h (by simp [lookupOp])
  | cons a rest ih =>
    by_cases hk : a.1 = k
    · simp [hk]
    · simp only [lookupOp, if_neg hk] at h
      simp [ih h]

theorem filterKey_eq_nil (sts : List (String × OperatorState)) (k : String)
    (h : k ∉ sts.map Prod.fst) : sts.filter (fun p => p.1 == k) = [] := by
  induction sts with
  | nil => rfl
  | cons a rest ih =>
    simp only [List.map_cons, List.mem_cons, not_or] at h
    have : (a.1 == k) = false := by
      exact beq_eq_false_iff_ne.mpr (fun he => h.1 he.symm)
    simp [List.filter, this, ih h.2]

theorem filterKey_len_le_one (sts : List (String × OperatorState)) (k : String)
    (h : keysNodup sts) : (sts.filter (fun p => p.1 == k)).length ≤ 1 := by
  induction sts with
  | nil => simp
  | cons a rest ih =>
    simp only [keysNodup, List.map_cons, List.nodup_cons] at h
    by_cases hk : a.1 = k
    · have : (a.1 == k) = true := beq_iff_eq.mpr hk
      simp [List.filter, this, filterKey_eq_nil rest k (by rw [← hk]; exact h.1)]
    · have : (a.1 == k) = false := beq_eq_false_iff_ne.mpr hk
      simp only [List.filter, this]
      exact ih h.2

theorem filterKey_setOp_len (sts : List (String × OperatorState)) (k : String)
    (v : OperatorState) (h : keysNodup sts) :
    ((setOp sts k v).filter (fun p => p.1 == k)).length = 1 := by
  induction sts with
  | nil => simp [setOp]
  | cons a rest ih =>
    simp only [keysNodup, List.map_cons, List.nodup_cons] at h
    by_cases hk : a.1 = k
    · simp only [setOp, if_pos hk]
      simp [List.filter, filterKey_eq_nil rest k (by rw [← hk]; exact h.1)]
    · have : (a.1 == k) = false := beq_eq_false_iff_ne.mpr hk
      simp only [setOp, if_neg hk, List.filter, this]
      exact ih h.2

/-! ## Queue-shape lemmas: where the forward queue can grow -/

theorem queue_appendCollected (st : NCC) (m : WxMsg) (s : OperatorState) :
    (appendCollected st m s).2.forward_queue = st.forward_queue := by
  simp [appendCollected, NCC.sendTextMsg]

theorem queue_handleChoiceMode (st : NCC) (env : Env) (m : WxMsg)
    (s : OperatorState) :
    (handleChoiceMode st env m s).2.forward_queue = st.forward_queue := by
  unfold handleChoiceMode
  repeat' first | rfl | split | simp only []

theorem queue_handleCollecting (st : NCC) (env : Env) (m : WxMsg)
    (s : OperatorState) :
    (handleCollecting st env m s).2.forward_queue = st.forward_queue := by
  unfold handleCollecting
  repeat' first | rfl | split | simp only []

/-- The selecting branch either leaves the queue alone or appends one task
    whose message list is the session's nonempty collected list. -/
theorem queue_handleSelecting (st : NCC) (m : WxMsg) (s : OperatorState) :
    (handleSelecting st m s).2.forward_queue = st.forward_queue ∨
      (s.messages ≠ [] ∧ ∃ gs,
        (handleSelecting st m s).2.forward_queue =
          st.forward_queue ++ [⟨s.messages, gs, m.sender⟩]) := by
  simp only [handleSelecting]
  split
  · exact Or.inl rfl
  · split
    · exact Or.inl rfl
    · next hm =>
      split
      · exact Or.inl rfl
      · exact Or.inr ⟨hm, _, rfl⟩

theorem queue_handleWelcomeGroupChoice (st : NCC) (m : WxMsg)
    (s : OperatorState) :
    (handleWelcomeGroupChoice st m s).2.forward_queue = st.forward_queue := by
  unfold handleWelcomeGroupChoice
  repeat' first | rfl | split | simp only []

theorem queue_handleWelcomeManage (st : NCC) (m : WxMsg) (s : OperatorState) :
    (handleWelcomeManage st m s).2.forward_queue = st.forward_queue := by
  unfold handleWelcomeManage
  repeat' first | rfl | split | simp only []

theorem queue_handleWelcomeCollecting (st : NCC) (m : WxMsg)
    (s : OperatorState) :
    (handleWelcomeCollecting st m s).2.forward_queue = st.forward_queue := by
  unfold handleWelcomeCollecting
  repeat' first | rfl | split | simp only []

/-- One intake step can only extend the queue with tasks that carry a
    nonempty message batch. -/
theorem queue_handleForwardState (st : NCC) (env : Env) (m : WxMsg)
    (s : OperatorState) :
    ∀ t ∈ (handleForwardState st env m s).2.forward_queue,
      t ∈ st.forward_queue ∨ t.messages ≠ [] := by
  intro t ht
  unfold handleForwardState at ht
  split at ht
  · exact Or.inl ht
  · split at ht
    · rw [queue_handleChoiceMode] at ht; exact Or.inl ht
    · rw [queue_handleCollecting] at ht; exact Or.inl ht
    · rcases queue_handleSelecting st m s with hq | ⟨hne, gs, hq⟩
      · rw [hq] at ht; exact Or.inl ht
      · rw [hq] at ht
        rcases List.mem_append.mp ht with h2 | h2
        · exact Or.inl h2
        · refine Or.inr ?_
          have he : t = ⟨s.messages, gs, m.sender⟩ := by simpa using h2
          rw [he]
          exact hne
    · rw [queue_handleWelcomeGroupChoice] at ht; exact Or.inl ht
    · rw [queue_handleWelcomeManage] at ht; exact Or.inl ht
    · rw [queue_handleWelcomeCollecting] at ht; exact Or.inl ht
    · exact Or.inl ht

/-- One intake step can only extend the queue with tasks that carry a
    nonempty message batch. -/
theorem queue_handle_message (st : NCC) (env : Env) (m : WxMsg) :
    ∀ t ∈ (handle_message st env m).2.forward_queue,
      t ∈ st.forward_queue ∨ t.messages ≠ [] := by
  intro t ht
  unfold handle_message at ht
  split at ht
  · split at ht
    · exact Or.inl ht
    · exact Or.inl ht
  · split at ht
    · split at ht
      · exact queue_handleForwardState st env m _ t ht
      · exact Or.inl ht
    · exact Or.inl ht

/-! ## Key-uniqueness preservation: the operator dict never gets a duplicate
     key, because every write is a `setOp` or a `delOp` -/

theorem keys_appendCollected (st : NCC) (m : WxMsg) (s : OperatorState)
    (h : keysNodup st.operator_states) :
    keysNodup (appendCollected st m s).2.operator_states :=
  keysNodup_setOp _ _ _ h

theorem keys_handleChoiceMode (st : NCC) (env : Env) (m : WxMsg)
    (s : OperatorState) (h : keysNodup st.operator_states) :
    keysNodup (handleChoiceMode st env m s).2.operator_states := by
  unfold handleChoiceMode
  repeat'
    first
      | exact h
      | exact keysNodup_setOp _ _ _ h
      | exact keysNodup_delOp _ _ (keysNodup_setOp _ _ _ h)
      | exact keysNodup_delOp _ _ h
      | split
      | simp only []

theorem keys_handleCollecting (st : NCC) (env : Env) (m : WxMsg)
    (s : OperatorState) (h : keysNodup st.operator_states) :
    keysNodup (handleCollecting st env m s).2.operator_states := by
  unfold handleCollecting
  repeat'
    first
      | exact h
      | exact keysNodup_setOp _ _ _ h
      | exact keysNodup_delOp _ _ (keysNodup_setOp _ _ _ h)
      | exact keysNodup_delOp _ _ h
      | exact keys_appendCollected _ _ _ h
      | split
      | simp only []

theorem keys_handleSelecting (st : NCC) (m : WxMsg) (s : OperatorState)
    (h : keysNodup st.operator_states) :
    keysNodup (handleSelecting st m s).2.operator_states := by
  unfold handleSelecting
  repeat'
    first
      | exact h
      | exact keysNodup_setOp _ _ _ h
      | exact keysNodup_delOp _ _ (keysNodup_setOp _ _ _ h)
      | exact keysNodup_delOp _ _ h
      | split
      | simp only []

theorem keys_handleWelcomeGroupChoice (st : NCC) (m : WxMsg) (s : OperatorState)
    (h : keysNodup st.operator_states) :
    keysNodup (handleWelcomeGroupChoice st m s).2.operator_states := by
  unfold handleWelcomeGroupChoice
  repeat'
    first
      | exact h
      | exact keysNodup_setOp _ _ _ h
      | exact keysNodup_delOp _ _ (keysNodup_setOp _ _ _ h)
      | exact keysNodup_delOp _ _ h
      | split
      | simp only []

theorem keys_handleWelcomeManage (st : NCC) (m : WxMsg) (s : OperatorState)
    (h : keysNodup st.operator_states) :
    keysNodup (handleWelcomeManage st m s).2.operator_states := by
  unfold handleWelcomeManage
  repeat'
    first
      | exact h
      | exact keysNodup_setOp _ _ _ h
      | exact keysNodup_delOp _ _ (keysNodup_setOp _ _ _ h)
      | exact keysNodup_delOp _ _ h
      | split
      | simp only []

theorem keys_handleWelcomeCollecting (st : NCC) (m : WxMsg) (s : OperatorState)
    (h : keysNodup st.operator_states) :
    keysNodup (handleWelcomeCollecting st m s).2.operator_states := by
  unfold handleWelcomeCollecting
  repeat'
    first
      | exact h
      | exact keysNodup_setOp _ _ _ h
      | exact keysNodup_delOp _ _ (keysNodup_setOp _ _ _ h)
      | exact keysNodup_delOp _ _ h
      | split
      | simp only []

theorem keys_handleForwardState (st : NCC) (env : Env) (m : WxMsg)
    (s : OperatorState) (h : keysNodup st.operator_states) :
    keysNodup (handleForwardState st env m s).2.operator_states := by
  unfold handleForwardState
  split
  · exact keysNodup_delOp _ _ h
  · split
    · exact keys_handleChoiceMode st env m s h
    · exact keys_handleCollecting st env m s h
    · exact keys_handleSelecting st m s h
    · exact keys_handleWelcomeGroupChoice st m s h
    · exact keys_handleWelcomeManage st m s h
    · exact keys_handleWelcomeCollecting st m s h
    · exact h

theorem keys_handle_message (st : NCC) (env : Env) (m : WxMsg)
    (h : keysNodup st.operator_states) :
    keysNodup (handle_message st env m).2.operator_states := by
  unfold handle_message
  split
  · split
    · exact keysNodup_setOp _ _ _ h
    · exact h
  · split
    · split
      · exact keys_handleForwardState st env m _ h
      · exact h
    · exact h

/-! ## Run-level invariants -/

theorem keys_runNCC (st : NCC) (events : List (Env × WxMsg))
    (h : keysNodup st.operator_states) :
    keysNodup (runNCC st events).operator_states := by
  induction events generalizing st with
  | nil => exact h
  | cons e rest ih => exact ih _ (keys_handle_message st e.1 e.2 h)

theorem queueInv_runNCC (st : NCC) (events : List (Env × WxMsg))
    (h : ∀ t ∈ st.forward_queue, t.messages ≠ []) :
    ∀ t ∈ (runNCC st events).forward_queue, t.messages ≠ [] := by
  induction events generalizing st with
  | nil => exact h
  | cons e rest ih =>
    refine ih _ ?_
    intro t ht
    rcases queue_handle_message st e.1 e.2 t ht with h2 | h2
    · exact h t h2
    · exact h2

/-- A "proceed" in COLLECTING with nothing collected does exactly one thing:
    send the send-content-first reply. State, queue, everything else is
    untouched. -/
theorem proceed_step (st : NCC) (env : Env) (m : WxMsg) (s : OperatorState)
    (hl : lookupOp st.operator_states m.sender = some s)
    (hs : s.state = .waiting_message) (hm0 : s.messages = [])
    (hc : m.content = "1") :
    (handle_message st env m).2 =
      st.sendTextMsg "还未收集到任何消息，请先发送需要转发的内容" m.sender := by
  have hkw : ¬(lowerStrip m.content = "ncc") := by rw [hc]; decide
  have h0 : ¬(m.content = "0") := by rw [hc]; decide
  unfold handle_message
  rw [if_neg hkw, hl]
  show (if s.state ≠ ForwardState.idle then handleForwardState st env m s
        else (false, st)).2 = _
  have hid : s.state ≠ ForwardState.idle := by rw [hs]; decide
  rw [if_pos hid]
  unfold handleForwardState
  rw [if_neg h0, hs]
  show (handleCollecting st env m s).2 = _
  unfold handleCollecting
  rw [if_pos hc, if_pos hm0]

/-- The entry keyword from an admin replaces the operator's binding with the
    same session record moved to the menu state. -/
theorem entry_step (st : NCC) (env : Env) (m : WxMsg) (s : OperatorState)
    (hl : lookupOp st.operator_states m.sender = some s)
    (hkw : lowerStrip m.content = "ncc")
    (ha : st.robot.db.get_admin_wxids.contains m.sender = true) :
    (handle_message st env m).2.operator_states =
      setOp st.operator_states m.sender
        { s with state := .waiting_choice_mode } := by
  unfold handle_message
  rw [if_pos hkw, if_pos ha, hl]
  rfl

/-! ## C6: proceed with zero collected messages, and no empty job -/

/-- C6: (a) any sequence of "proceed" attempts issued while a session is in
    COLLECTING with zero collected messages leaves that session untouched
    (still COLLECTING, still empty), enqueues nothing, and answers each
    attempt with exactly the send-content-first reply; (b) in every state
    reachable from a fresh manager, every queued ForwardJob carries a
    nonempty message batch. -/
theorem c6_no_empty_forward_job :
    (∀ (st : NCC) (s : OperatorState) (sender : String)
        (evs : List (Env × WxMsg)),
      lookupOp st.operator_states sender = some s →
      s.state = ForwardState.waiting_message → s.messages = [] →
      (∀ e ∈ evs, e.2.sender = sender ∧ e.2.content = "1") →
      lookupOp (runNCC st evs).operator_states sender = some s ∧
        (runNCC st evs).forward_queue = st.forward_queue ∧
        (runNCC st evs).replies = st.replies ++
          evs.map (fun _ => ("还未收集到任何消息，请先发送需要转发的内容", sender))) ∧
    (∀ (r : Robot) (events : List (Env × WxMsg)),
      ∀ t ∈ (runNCC (initNCC r) events).forward_queue, t.messages ≠ []) := by
  constructor
  · intro st s sender evs
    induction evs generalizing st with
    | nil =>
      intro hl _ _ _
      exact ⟨hl, rfl, by simp [runNCC]⟩
    | cons e rest ih =>
      intro hl hs hm0 hall
      have he := hall e (List.mem_cons_self e rest)
      have hstep := proceed_step st e.1 e.2 s (by rw [he.1]; exact hl) hs hm0 he.2
      have hops : (stepM st e).operator_states = st.operator_states := by
        simp [stepM, hstep, NCC.sendTextMsg]
      have hq : (stepM st e).forward_queue = st.forward_queue := by
        simp [stepM, hstep, NCC.sendTextMsg]
      have hr : (stepM st e).replies = st.replies ++
          [("还未收集到任何消息，请先发送需要转发的内容", sender)] := by
        simp [stepM, hstep, NCC.sendTextMsg, he.1]
      have ihr := ih (stepM st e) (by rw [hops]; exact hl) hs hm0
        (fun e2 he2 => hall e2 (List.mem_cons_of_mem e he2))
      refine ⟨ihr.1, ihr.2.1.trans hq, ?_⟩
      show (runNCC (stepM st e) rest).replies = _
      rw [ihr.2.2, hr, List.map_cons, List.append_assoc, List.singleton_append]
  · intro r events
    exact queueInv_runNCC (initNCC r) events (by intro t ht; exact absurd ht (by simp [initNCC]))

/-- Witness for `c6_no_empty_forward_job`: the concrete empty-COLLECTING
    state of operator op1, one concrete proceed attempt, and a concrete run
    from the fresh manager. -/
theorem c6_no_empty_forward_job_witness :
    (lookupOp (runNCC stCollect0 [(envOk, msgW "1")]).operator_states "op1" =
        some { state := ForwardState.waiting_message } ∧
      (runNCC stCollect0 [(envOk, msgW "1")]).forward_queue =
        stCollect0.forward_queue ∧
      (runNCC stCollect0 [(envOk, msgW "1")]).replies = stCollect0.replies ++
        [(envOk, msgW "1")].map
          (fun _ => ("还未收集到任何消息，请先发送需要转发的内容", "op1"))) ∧
    (∀ t ∈ (runNCC (initNCC robotW)
        [(envOk, msgW "ncc"), (envOk, msgW "1")]).forward_queue,
      t.messages ≠ []) :=
  ⟨c6_no_empty_forward_job.1 stCollect0 { state := ForwardState.waiting_message }
      "op1" [(envOk, msgW "1")] (by decide) rfl rfl (by decide),
   c6_no_empty_forward_job.2 robotW [(envOk, msgW "ncc"), (envOk, msgW "1")]⟩

/-! ## C7: one session per operator; entry replaces -/

/-- C7: (a) in every reachable session store each operator is bound to at
    most one session; (b) the entry keyword from an admin who already has a
    session replaces it in place, moved to the menu state, and leaves
    exactly one binding for that operator. -/
theorem c7_one_session_per_operator :
    (∀ (r : Robot) (events : List (Env × WxMsg)) (op : String),
      ((runNCC (initNCC r) events).operator_states.filter
          fun p => p.1 == op).length ≤ 1) ∧
    (∀ (st : NCC) (env : Env) (m : WxMsg) (s : OperatorState),
      keysNodup st.operator_states →
      lookupOp st.operator_states m.sender = some s →
      lowerStrip m.content = "ncc" →
      st.robot.db.get_admin_wxids.contains m.sender = true →
      lookupOp (handle_message st env m).2.operator_states m.sender =
        some { s with state := .waiting_choice_mode } ∧
      ((handle_message st env m).2.operator_states.filter
          fun p => p.1 == m.sender).length = 1) := by
  constructor
  · intro r events op
    exact filterKey_len_le_one _ _
      (keys_runNCC (initNCC r) events (by simp [initNCC, keysNodup]))
  · intro st env m s hnd hl hkw ha
    have hops := entry_step st env m s hl hkw ha
    exact ⟨by rw [hops]; exact lookupOp_setOp_self _ _ _,
           by rw [hops]; exact filterKey_setOp_len _ _ _ hnd⟩

/-- Witness for `c7_one_session_per_operator`: a concrete run, and the
    concrete menu-state manager receiving the entry keyword again. -/
theorem c7_one_session_per_operator_witness :
    (((runNCC (initNCC robotW) [(envOk, msgW "ncc")]).operator_states.filter
        fun p => p.1 == "op1").length ≤ 1) ∧
    (lookupOp (handle_message stMenu envOk (msgW "ncc")).2.operator_states
        "op1" = some { state := .waiting_choice_mode } ∧
      ((handle_message stMenu envOk (msgW "ncc")).2.operator_states.filter
          fun p => p.1 == "op1").length = 1) :=
  ⟨c7_one_session_per_operator.1 robotW [(envOk, msgW "ncc")] "op1",
   c7_one_session_per_operator.2 stMenu envOk (msgW "ncc")
     { state := .waiting_choice_mode } (by unfold keysNodup; decide) (by decide)
     (by decide) (by decide)⟩

/-! ## Reduction lemmas: selecting the branch of the dispatch -/

theorem handle_message_eq_forward (st : NCC) (env : Env) (m : WxMsg)
    (s : OperatorState) (hkw : ¬(lowerStrip m.content = "ncc"))
    (hl : lookupOp st.operator_states m.sender = some s)
    (hid : s.state ≠ ForwardState.idle) :
    handle_message st env m = handleForwardState st env m s := by
  unfold handle_message
  rw [if_neg hkw, hl]
  show (if s.state ≠ ForwardState.idle then handleForwardState st env m s
        else (false, st)) = _
  rw [if_pos hid]

theorem forward_eq_exit (st : NCC) (env : Env) (m : WxMsg) (s : OperatorState)
    (hc : m.content = "0") :
    handleForwardState st env m s =
      (true, (st.resetOperatorState m.sender).sendTextMsg "已退出管理模式" m.sender) := by
  unfold handleForwardState
  rw [if_pos hc]

theorem forward_eq_choiceMode (st : NCC) (env : Env) (m : WxMsg)
    (s : OperatorState) (h0 : ¬(m.content = "0"))
    (hs : s.state = ForwardState.waiting_choice_mode) :
    handleForwardState st env m s = handleChoiceMode st env m s := by
  unfold handleForwardState
  rw [if_neg h0, hs]

theorem forward_eq_collecting (st : NCC) (env : Env) (m : WxMsg)
    (s : OperatorState) (h0 : ¬(m.content = "0"))
    (hs : s.state = ForwardState.waiting_message) :
    handleForwardState st env m s = handleCollecting st env m s := by
  unfold handleForwardState
  rw [if_neg h0, hs]

theorem forward_eq_selecting (st : NCC) (env : Env) (m : WxMsg)
    (s : OperatorState) (h0 : ¬(m.content = "0"))
    (hs : s.state = ForwardState.waiting_choice) :
    handleForwardState st env m s = handleSelecting st m s := by
  unfold handleForwardState
  rw [if_neg h0, hs]

theorem forward_eq_welcomeGroupChoice (st : NCC) (env : Env) (m : WxMsg)
    (s : OperatorState) (h0 : ¬(m.content = "0"))
    (hs : s.state = ForwardState.waiting_welcome_group_choice) :
    handleForwardState st env m s = handleWelcomeGroupChoice st m s := by
  unfold handleForwardState
  rw [if_neg h0, hs]

theorem forward_eq_welcomeManage (st : NCC) (env : Env) (m : WxMsg)
    (s : OperatorState) (h0 : ¬(m.content = "0"))
    (hs : s.state = ForwardState.waiting_welcome_manage) :
    handleForwardState st env m s = handleWelcomeManage st m s := by
  unfold handleForwardState
  rw [if_neg h0, hs]

theorem forward_eq_welcomeCollecting (st : NCC) (env : Env) (m : WxMsg)
    (s : OperatorState) (h0 : ¬(m.content = "0"))
    (hs : s.state = ForwardState.waiting_welcome_collecting) :
    handleForwardState st env m s = handleWelcomeCollecting st m s := by
  unfold handleForwardState
  rw [if_neg h0, hs]

theorem handle_message_eq_idle (st : NCC) (env : Env) (m : WxMsg)
    (s : OperatorState) (hkw : ¬(lowerStrip m.content = "ncc"))
    (hl : lookupOp st.operator_states m.sender = some s)
    (hid : s.state = ForwardState.idle) :
    handle_message st env m = (false, st) := by
  unfold handle_message
  rw [if_neg hkw, hl]
  show (if s.state ≠ ForwardState.idle then handleForwardState st env m s
        else (false, st)) = _
  rw [if_neg (by rw [hid]; simp)]

/-! ## Session-evolution lemmas: how each branch can change the operator's
     surviving session -/

theorem msgs_handleChoiceMode (st : NCC) (env : Env) (m : WxMsg)
    (s s' : OperatorState) (hnd : keysNodup st.operator_states)
    (hl : lookupOp st.operator_states m.sender = some s)
    (hl' : lookupOp (handleChoiceMode st env m s).2.operator_states m.sender =
      some s') :
    s' = s ∨ s' = { s with state := .waiting_message, messages := [] } ∨
      s' = { s with state := .waiting_welcome_group_choice } := by
  unfold handleChoiceMode at hl'
  by_cases h5 : m.content = "5"
  · rw [if_pos h5] at hl'
    simp only [NCC.sendTextMsg, NCC.resetOperatorState] at hl'
    split at hl'
    · rw [lookupOp_delOp_self _ _ (keysNodup_setOp _ _ _ hnd)] at hl'
      exact absurd hl' (by simp)
    · rw [lookupOp_setOp_self] at hl'
      exact Or.inr (Or.inr (Option.some.inj hl').symm)
  · rw [if_neg h5] at hl'
    by_cases h2 : m.content = "2"
    · rw [if_pos h2] at hl'
      simp only [NCC.sendTextMsg] at hl'
      rw [hl] at hl'
      exact Or.inl (Option.some.inj hl').symm
    · rw [if_neg h2] at hl'
      by_cases h1 : m.content = "1"
      · rw [if_pos h1] at hl'
        simp only [NCC.sendTextMsg] at hl'
        rw [lookupOp_setOp_self] at hl'
        exact Or.inr (Or.inl (Option.some.inj hl').symm)
      · rw [if_neg h1] at hl'
        by_cases h3 : m.content = "3"
        · rw [if_pos h3] at hl'
          simp only [NCC.sendTextMsg] at hl'
          rw [hl] at hl'
          exact Or.inl (Option.some.inj hl').symm
        · rw [if_neg h3] at hl'
          by_cases h4 : m.content = "4"
          · rw [if_pos h4] at hl'
            simp only [NCC.sendTextMsg] at hl'
            rw [hl] at hl'
            exact Or.inl (Option.some.inj hl').symm
          · rw [if_neg h4] at hl'
            simp only [NCC.sendTextMsg] at hl'
            rw [hl] at hl'
            exact Or.inl (Option.some.inj hl').symm

theorem msgs_appendCollected (st : NCC) (m : WxMsg) (s s' : OperatorState)
    (hl' : lookupOp (appendCollected st m s).2.operator_states m.sender =
      some s') :
    s' = { s with messages := s.messages ++ [m] } := by
  simp only [appendCollected, NCC.sendTextMsg] at hl'
  rw [lookupOp_setOp_self] at hl'
  exact (Option.some.inj hl').symm

theorem msgs_handleCollecting (st : NCC) (env : Env) (m : WxMsg)
    (s s' : OperatorState) (hnd : keysNodup st.operator_states)
    (hl : lookupOp st.operator_states m.sender = some s)
    (hl' : lookupOp (handleCollecting st env m s).2.operator_states m.sender =
      some s') :
    s' = s ∨ s' = { s with state := .waiting_choice } ∨
      s' = { s with messages := s.messages ++ [m] } := by
  unfold handleCollecting at hl'
  by_cases h1 : m.content = "1"
  · rw [if_pos h1] at hl'
    by_cases hm : s.messages = []
    · rw [if_pos hm] at hl'
      simp only [NCC.sendTextMsg] at hl'
      rw [hl] at hl'
      exact Or.inl (Option.some.inj hl').symm
    · rw [if_neg hm] at hl'
      simp only [NCC.sendTextMsg, NCC.resetOperatorState] at hl'
      split at hl'
      · rw [lookupOp_delOp_self _ _ (keysNodup_setOp _ _ _ hnd)] at hl'
        exact absurd hl' (by simp)
      · rw [lookupOp_setOp_self] at hl'
        exact Or.inr (Or.inl (Option.some.inj hl').symm)
  · rw [if_neg h1] at hl'
    by_cases h3 : m.mtype = 3
    · rw [if_pos h3] at hl'
      rcases hdl : env.dl with _ | _ | _ | _ <;> rw [hdl] at hl'
      · exact Or.inr (Or.inr (msgs_appendCollected _ m s s' hl'))
      · simp only [NCC.sendTextMsg] at hl'
        rw [hl] at hl'
        exact Or.inl (Option.some.inj hl').symm
      · simp only [NCC.sendTextMsg] at hl'
        rw [hl] at hl'
        exact Or.inl (Option.some.inj hl').symm
      · simp only [NCC.sendTextMsg] at hl'
        rw [hl] at hl'
        exact Or.inl (Option.some.inj hl').symm
    · rw [if_neg h3] at hl'
      exact Or.inr (Or.inr (msgs_appendCollected _ m s s' hl'))

theorem msgs_handleSelecting (st : NCC) (m : WxMsg) (s s' : OperatorState)
    (hnd : keysNodup st.operator_states)
    (hl : lookupOp st.operator_states m.sender = some s)
    (hl' : lookupOp (handleSelecting st m s).2.operator_states m.sender =
      some s') :
    s' = s := by
  unfold handleSelecting at hl'
  split at hl'
  · simp only [NCC.sendTextMsg] at hl'
    rw [hl] at hl'
    exact (Option.some.inj hl').symm
  · split at hl'
    · rw [hl] at hl'
      exact (Option.some.inj hl').symm
    · simp only [NCC.sendTextMsg, NCC.resetOperatorState] at hl'
      split at hl'
      · rw [hl] at hl'
        exact (Option.some.inj hl').symm
      · rw [lookupOp_delOp_self _ _ hnd] at hl'
        exact absurd hl' (by simp)

theorem msgs_handleWelcomeGroupChoice (st : NCC) (m : WxMsg)
    (s s' : OperatorState) (hnd : keysNodup st.operator_states)
    (hl : lookupOp st.operator_states m.sender = some s)
    (hl' : lookupOp (handleWelcomeGroupChoice st m s).2.operator_states
      m.sender = some s') :
    s' = s ∨
      ∃ g, s' = { s with state := .waiting_welcome_manage, current_group := some g } := by
  unfold handleWelcomeGroupChoice at hl'
  split at hl'
  · simp only [NCC.sendTextMsg] at hl'
    rw [hl] at hl'
    exact Or.inl (Option.some.inj hl').symm
  · split at hl'
    · simp only [NCC.sendTextMsg, NCC.resetOperatorState] at hl'
      rw [lookupOp_delOp_self _ _ hnd] at hl'
      exact absurd hl' (by simp)
    · simp only [NCC.sendTextMsg] at hl'
      split at hl'
      · rw [lookupOp_setOp_self] at hl'
        exact Or.inr ⟨_, (Option.some.inj hl').symm⟩
      · rw [hl] at hl'
        exact Or.inl (Option.some.inj hl').symm

theorem msgs_handleWelcomeManage (st : NCC) (m : WxMsg) (s s' : OperatorState)
    (hnd : keysNodup st.operator_states)
    (hl : lookupOp st.operator_states m.sender = some s)
    (hl' : lookupOp (handleWelcomeManage st m s).2.operator_states m.sender =
      some s') :
    s' = s ∨
      s' = { s with state := .waiting_welcome_collecting, messages := [] } := by
  unfold handleWelcomeManage at hl'
  split at hl'
  · simp only [NCC.sendTextMsg] at hl'
    rw [hl] at hl'
    exact Or.inl (Option.some.inj hl').symm
  · split at hl'
    · simp only [NCC.sendTextMsg, NCC.resetOperatorState] at hl'
      rw [lookupOp_delOp_self _ _ hnd] at hl'
      exact absurd hl' (by simp)
    · split at hl'
      · simp only [] at hl'
        rw [hl] at hl'
        exact Or.inl (Option.some.inj hl').symm
      · split at hl'
        · simp only [NCC.sendTextMsg] at hl'
          rw [lookupOp_setOp_self] at hl'
          exact Or.inr (Option.some.inj hl').symm
        · simp only [NCC.sendTextMsg] at hl'
          rw [hl] at hl'
          exact Or.inl (Option.some.inj hl').symm

theorem msgs_handleWelcomeCollecting (st : NCC) (m : WxMsg)
    (s s' : OperatorState) (hnd : keysNodup st.operator_states)
    (hl : lookupOp st.operator_states m.sender = some s)
    (hl' : lookupOp (handleWelcomeCollecting st m s).2.operator_states
      m.sender = some s') :
    s' = s ∨ s' = { s with messages := s.messages ++ [m] } := by
  unfold handleWelcomeCollecting at hl'
  by_cases h1 : m.content = "1"
  · rw [if_pos h1] at hl'
    by_cases hm : s.messages = []
    · rw [if_pos hm] at hl'
      simp only [NCC.sendTextMsg] at hl'
      rw [hl] at hl'
      exact Or.inl (Option.some.inj hl').symm
    · rw [if_neg hm] at hl'
      simp only [NCC.sendTextMsg, NCC.resetOperatorState] at hl'
      rw [lookupOp_delOp_self _ _ hnd] at hl'
      exact absurd hl' (by simp)
  · rw [if_neg h1] at hl'
    simp only [NCC.sendTextMsg] at hl'
    rw [lookupOp_setOp_self] at hl'
    exact Or.inr (Option.some.inj hl').symm

/-! ## C4: menu-triggered resync and refresh failure -/

/-- C4 (counterexample): with the directory source throwing, the menu resync
    still replies 同步成功 ("sync success") -- and nothing else -- to the
    operator; the failure is not reported. The cache file stays unwritten. -/
theorem c4_counterexample :
    envErr.source = Except.error "notion api error" ∧
    (handle_message stMenu envErr (msgW "2")).2.replies =
      [("同步成功，请选择操作", "op1"), (menuText, "op1")] ∧
    (handle_message stMenu envErr (msgW "2")).2.robot.notion_cache = none := by
  refine ⟨rfl, by decide, by decide⟩

/-- C4 (amended): a menu-triggered resync always replies "sync success"
    followed by the menu, whether or not the refresh succeeded -- the boolean
    failure result of `fetch_notion_data` is discarded by
    `Robot.sync_data_from_notion`, so a refresh failure is only logged, never
    reported to the operator. The session state, the queue, the sqlite store
    and the cache file are unchanged by the failed resync. -/
theorem c4_resync_reports_success (st : NCC) (env : Env) (m : WxMsg)
    (s : OperatorState) (e : String)
    (hl : lookupOp st.operator_states m.sender = some s)
    (hs : s.state = ForwardState.waiting_choice_mode)
    (hc : m.content = "2")
    (hsrc : env.source = .error e) :
    (handle_message st env m).2.operator_states = st.operator_states ∧
    (handle_message st env m).2.robot.db = st.robot.db ∧
    (handle_message st env m).2.robot.notion_cache = st.robot.notion_cache ∧
    (handle_message st env m).2.forward_queue = st.forward_queue ∧
    (handle_message st env m).2.replies =
      st.replies ++ [("同步成功，请选择操作", m.sender), (menuText, m.sender)] := by
  have hkw : ¬(lowerStrip m.content = "ncc") := by rw [hc]; decide
  have h0 : ¬(m.content = "0") := by rw [hc]; decide
  have h5 : ¬(m.content = "5") := by rw [hc]; decide
  have hid : s.state ≠ ForwardState.idle := by rw [hs]; decide
  have hred : (handle_message st env m).2 =
      (({ st with robot := st.robot.sync_data_from_notion (.error e) }.sendTextMsg
          "同步成功，请选择操作" m.sender).sendTextMsg menuText m.sender) := by
    unfold handle_message
    rw [if_neg hkw, hl]
    show (if s.state ≠ ForwardState.idle then handleForwardState st env m s
          else (false, st)).2 = _
    rw [if_pos hid]
    unfold handleForwardState
    rw [if_neg h0, hs]
    show (handleChoiceMode st env m s).2 = _
    unfold handleChoiceMode
    rw [if_neg h5, if_pos hc, hsrc]
  rw [hred]
  refine ⟨rfl, rfl, rfl, rfl, ?_⟩
  simp [NCC.sendTextMsg]

/-- Witness for `c4_resync_reports_success` at the concrete menu state with
    the throwing source. -/
theorem c4_resync_reports_success_witness :
    (handle_message stMenu envErr (msgW "2")).2.operator_states =
      stMenu.operator_states ∧
    (handle_message stMenu envErr (msgW "2")).2.robot.db = stMenu.robot.db ∧
    (handle_message stMenu envErr (msgW "2")).2.robot.notion_cache =
      stMenu.robot.notion_cache ∧
    (handle_message stMenu envErr (msgW "2")).2.forward_queue =
      stMenu.forward_queue ∧
    (handle_message stMenu envErr (msgW "2")).2.replies =
      stMenu.replies ++ [("同步成功，请选择操作", (msgW "2").sender),
        (menuText, (msgW "2").sender)] :=
  c4_resync_reports_success stMenu envErr (msgW "2")
    { state := .waiting_choice_mode } "notion api error"
    (by decide) rfl rfl rfl

/-! ## C10: the entry keyword's frame, and where messages can be cleared -/

/-- C10: (a) the entry keyword from an operator with an active session only
    moves that session to the menu state -- the binding becomes the same
    record with the state field replaced, so the collected messages and
    current_group are kept; (b) a surviving session's collected-messages
    field changes only by appending the inbound message during collection,
    or by being cleared exactly on the two workflow entries: selecting the
    forward workflow from the root menu, or selecting the welcome-collecting
    workflow from the welcome-manage menu. -/
theorem c10_entry_frame_and_clear_sites :
    (∀ (st : NCC) (env : Env) (m : WxMsg) (s : OperatorState),
      lookupOp st.operator_states m.sender = some s →
      lowerStrip m.content = "ncc" →
      st.robot.db.get_admin_wxids.contains m.sender = true →
      lookupOp (handle_message st env m).2.operator_states m.sender =
        some { s with state := .waiting_choice_mode }) ∧
    (∀ (st : NCC) (env : Env) (m : WxMsg) (s s' : OperatorState),
      keysNodup st.operator_states →
      lookupOp st.operator_states m.sender = some s →
      lookupOp (handle_message st env m).2.operator_states m.sender = some s' →
      s'.messages ≠ s.messages →
      s'.messages = s.messages ++ [m] ∨
        (s.state = ForwardState.waiting_choice_mode ∧
          s'.state = ForwardState.waiting_message ∧ s'.messages = []) ∨
        (s.state = ForwardState.waiting_welcome_manage ∧
          s'.state = ForwardState.waiting_welcome_collecting ∧
          s'.messages = [])) := by
  constructor
  · intro st env m s hl hkw ha
    rw [entry_step st env m s hl hkw ha]
    exact lookupOp_setOp_self _ _ _
  · intro st env m s s' hnd hl hl' hne
    by_cases hkw : lowerStrip m.content = "ncc"
    · by_cases ha : st.robot.db.get_admin_wxids.contains m.sender = true
      · rw [entry_step st env m s hl hkw ha, lookupOp_setOp_self] at hl'
        have he := (Option.some.inj hl').symm
        exact absurd (by rw [he]) hne
      · unfold handle_message at hl'
        rw [if_pos hkw, if_neg ha] at hl'
        simp only [NCC.sendTextMsg] at hl'
        rw [hl] at hl'
        exact absurd (by rw [(Option.some.inj hl').symm]) hne
    · by_cases hid : s.state = ForwardState.idle
      · rw [handle_message_eq_idle st env m s hkw hl hid] at hl'
        rw [hl] at hl'
        exact absurd (by rw [(Option.some.inj hl').symm]) hne
      · rw [handle_message_eq_forward st env m s hkw hl hid] at hl'
        by_cases h0 : m.content = "0"
        · rw [forward_eq_exit st env m s h0] at hl'
          simp only [NCC.sendTextMsg, NCC.resetOperatorState] at hl'
          rw [lookupOp_delOp_self _ _ hnd] at hl'
          exact absurd hl' (by simp)
        · cases hsv : s.state with
          | idle => exact absurd hsv hid
          | waiting_choice_mode =>
            rw [forward_eq_choiceMode st env m s h0 hsv] at hl'
            rcases msgs_handleChoiceMode st env m s s' hnd hl hl' with he | he | he
            · exact absurd (by rw [he]) hne
            · exact Or.inr (Or.inl ⟨rfl, by rw [he], by rw [he]⟩)
            · exact absurd (by rw [he]) hne
          | waiting_message =>
            rw [forward_eq_collecting st env m s h0 hsv] at hl'
            rcases msgs_handleCollecting st env m s s' hnd hl hl' with he | he | he
            · exact absurd (by rw [he]) hne
            · exact absurd (by rw [he]) hne
            · exact Or.inl (by rw [he])
          | waiting_choice =>
            rw [forward_eq_selecting st env m s h0 hsv] at hl'
            exact absurd (by rw [msgs_handleSelecting st m s s' hnd hl hl']) hne
          | waiting_welcome_group_choice =>
            rw [forward_eq_welcomeGroupChoice st env m s h0 hsv] at hl'
            rcases msgs_handleWelcomeGroupChoice st m s s' hnd hl hl' with he | ⟨g, he⟩
            · exact absurd (by rw [he]) hne
            · exact absurd (by rw [he]) hne
          | waiting_welcome_manage =>
            rw [forward_eq_welcomeManage st env m s h0 hsv] at hl'
            rcases msgs_handleWelcomeManage st m s s' hnd hl hl' with he | he
            · exact absurd (by rw [he]) hne
            · exact Or.inr (Or.inr ⟨rfl, by rw [he], by rw [he]⟩)
          | waiting_welcome_collecting =>
            rw [forward_eq_welcomeCollecting st env m s h0 hsv] at hl'
            rcases msgs_handleWelcomeCollecting st m s s' hnd hl hl' with he | he
            · exact absurd (by rw [he]) hne
            · exact Or.inl (by rw [he])

/-- Witness for `c10_entry_frame_and_clear_sites`: the entry keyword over a
    collecting session with one collected message keeps the message, and a
    concrete collection step instantiates the change analysis. -/
theorem c10_entry_frame_and_clear_sites_witness :
    lookupOp (handle_message stCollect1 envOk (msgW "ncc")).2.operator_states
        "op1" =
      some { state := .waiting_choice_mode, messages := [msgW "hello"] } ∧
    (({ state := ForwardState.waiting_message,
        messages := [msgW "hi"] } : OperatorState).messages =
        ({ state := ForwardState.waiting_message } : OperatorState).messages
          ++ [msgW "hi"] ∨
      (({ state := ForwardState.waiting_message } : OperatorState).state =
          ForwardState.waiting_choice_mode ∧
        ({ state := ForwardState.waiting_message,
           messages := [msgW "hi"] } : OperatorState).state =
          ForwardState.waiting_message ∧
        ({ state := ForwardState.waiting_message,
           messages := [msgW "hi"] } : OperatorState).messages = []) ∨
      (({ state := ForwardState.waiting_message } : OperatorState).state =
          ForwardState.waiting_welcome_manage ∧
        ({ state := ForwardState.waiting_message,
           messages := [msgW "hi"] } : OperatorState).state =
          ForwardState.waiting_welcome_collecting ∧
        ({ state := ForwardState.waiting_message,
           messages := [msgW "hi"] } : OperatorState).messages = [])) :=
  ⟨c10_entry_frame_and_clear_sites.1 stCollect1 envOk (msgW "ncc")
      { state := .waiting_message, messages := [msgW "hello"] }
      (by decide) (by decide) (by decide),
   c10_entry_frame_and_clear_sites.2 stCollect0 envOk (msgW "hi")
      { state := ForwardState.waiting_message }
      { state := ForwardState.waiting_message, messages := [msgW "hi"] }
      (by unfold keysNodup; decide) (by decide) (by decide) (by decide)⟩

/-! ## C1: the "all groups" selector -/

/-- C1 (counterexample): in state `dbC1` the group "g1" is flagged
    allow_forward but belongs to no list, and the code's "all groups"
    resolution misses it, so the resolution differs from the spec's
    "every group flagged allow_forward" set. -/
theorem c1_counterexample :
    Db.resolveSelection dbC1 [1] ≠ Db.specAllForwardableGroups dbC1 ∧
      Db.resolveSelection dbC1 [1] = ∅ ∧
      Db.specAllForwardableGroups dbC1 = {"g1"} := by
  refine ⟨?_, ?_, ?_⟩ <;> decide

/-- C1 (amended): resolving a selection containing token 1 in the SELECTING
    state yields exactly the deduplicated set of every group whose
    allow_forward flag is set AND that is a member of at least one forward
    list; allow_forward groups with no list membership are excluded by the
    inner join. -/
theorem c1_all_groups_resolution (db : Db) (sel : List Int)
    (h : (1 : Int) ∈ sel) (w : String) :
    w ∈ db.resolveSelection sel ↔
      ∃ g ∈ db.groups, g.wxid = w ∧ g.allow_forward = true ∧
        ∃ gl ∈ db.group_lists, gl.group_wxid = g.wxid := by
  simp only [Db.resolveSelection, Db.resolveRows, if_pos h, Db.allGroupsJoinRows,
    List.mem_toFinset, List.mem_flatMap, List.mem_filterMap]
  constructor
  · rintro ⟨g, hg, gl, hgl, hif⟩
    by_cases hc : gl.group_wxid = g.wxid ∧ g.allow_forward = true
    · rw [if_pos hc] at hif
      exact ⟨g, hg, Option.some.inj hif, hc.2, gl, hgl, hc.1⟩
    · rw [if_neg hc] at hif
      exact absurd hif (Option.noConfusion)
  · rintro ⟨g, hg, hw, hf, gl, hgl, hm⟩
    exact ⟨g, hg, gl, hgl, by rw [if_pos ⟨hm, hf⟩, hw]⟩

/-- Witness for `c1_all_groups_resolution` at the concrete state `dbW` and
    selection `[1]`. -/
theorem c1_all_groups_resolution_witness :
    "gw" ∈ Db.resolveSelection dbW [1] ↔
      ∃ g ∈ dbW.groups, g.wxid = "gw" ∧ g.allow_forward = true ∧
        ∃ gl ∈ dbW.group_lists, gl.group_wxid = g.wxid :=
  c1_all_groups_resolution dbW [1] (by decide) "gw"

/-! ## C2: the multi-select token "1+2" -/

/-- C2 (counterexample): "1+2" parses to [1, 2], and because the token 1
    means "all groups", resolving it in state `dbC2` returns the group of
    list 3 as well -- not the union of the group sets of lists 1 and 2. -/
theorem c2_counterexample :
    parseListIds "1+2" = some [1, 2] ∧
      Db.resolveSelection dbC2 [1, 2] ≠
        Db.specGroupsForList dbC2 1 ∪ Db.specGroupsForList dbC2 2 ∧
      Db.resolveSelection dbC2 [1, 2] = {"g3"} ∧
      Db.specGroupsForList dbC2 1 ∪ Db.specGroupsForList dbC2 2 = ∅ := by
  refine ⟨by decide, ?_, ?_, ?_⟩ <;> decide

/-- C2 (amended): because the multi-select token "1+2" contains the selector
    1 meaning "all groups", it resolves to the all-groups resolution (every
    allow_forward group with at least one list membership), not to the union
    of the group sets of lists 1 and 2. -/
theorem c2_one_plus_two_resolution :
    parseListIds "1+2" = some [1, 2] ∧
      ∀ db : Db, db.resolveSelection [1, 2] = db.resolveAllGroups := by
  refine ⟨by decide, fun db => ?_⟩
  simp [Db.resolveSelection, Db.resolveRows, Db.resolveAllGroups]

/-! ## C3: groupsForList and the allow_forward filter -/

/-- C3 (counterexample): `DatabaseManager.get_groups_by_list_id` has no
    allow_forward filter, so in state `dbC3` the non-forwardable group "g0"
    appears in its result for list 2. -/
theorem c3_counterexample :
    Db.get_groups_by_list_id dbC3 2 = ["g0"] ∧
      ∀ g ∈ dbC3.groups, g.wxid = "g0" → g.allow_forward = false := by
  refine ⟨by decide, by decide⟩

/-- C3 (amended): `get_groups_by_list_id` returns exactly the member groups
    of the list regardless of allow_forward; it is the selection-time
    resolution query that filters on allow_forward, so no group with
    allow_forward unset ever appears among resolved forward targets. -/
theorem c3_groups_by_list_id (db : Db) (listId : Int) (w : String) :
    (w ∈ db.get_groups_by_list_id listId ↔
      ∃ g ∈ db.groups, g.wxid = w ∧
        ∃ gl ∈ db.group_lists, gl.group_wxid = g.wxid ∧ gl.list_id = listId) ∧
    (∀ sel : List Int, w ∈ db.resolveSelection sel →
      ∃ g ∈ db.groups, g.wxid = w ∧ g.allow_forward = true) := by
  constructor
  · simp only [Db.get_groups_by_list_id, List.mem_flatMap, List.mem_filterMap]
    constructor
    · rintro ⟨g, hg, gl, hgl, hif⟩
      by_cases hc : gl.group_wxid = g.wxid ∧ gl.list_id = listId
      · rw [if_pos hc] at hif
        exact ⟨g, hg, Option.some.inj hif, gl, hgl, hc⟩
      · rw [if_neg hc] at hif
        exact absurd hif (Option.noConfusion)
    · rintro ⟨g, hg, hw, gl, hgl, hm, hl⟩
      exact ⟨g, hg, gl, hgl, by rw [if_pos ⟨hm, hl⟩, hw]⟩
  · intro sel hw
    simp only [Db.resolveSelection, Db.resolveRows] at hw
    by_cases h1 : (1 : Int) ∈ sel
    · rw [if_pos h1] at hw
      simp only [Db.allGroupsJoinRows, List.mem_toFinset,
        List.mem_flatMap, List.mem_filterMap] at hw
      obtain ⟨g, hg, gl, hgl, hif⟩ := hw
      by_cases hc : gl.group_wxid = g.wxid ∧ g.allow_forward = true
      · rw [if_pos hc] at hif
        exact ⟨g, hg, Option.some.inj hif, hc.2⟩
      · rw [if_neg hc] at hif
        exact absurd hif (Option.noConfusion)
    · rw [if_neg h1] at hw
      simp only [Db.listGroupsJoinRows, List.mem_toFinset,
        List.mem_flatMap, List.mem_filterMap] at hw
      obtain ⟨g, hg, gl, hgl, hif⟩ := hw
      by_cases hc : gl.group_wxid = g.wxid ∧ gl.list_id ∈ sel ∧ g.allow_forward = true
      · rw [if_pos hc] at hif
        exact ⟨g, hg, Option.some.inj hif, hc.2.2⟩
      · rw [if_neg hc] at hif
        exact absurd hif (Option.noConfusion)

/-- Witness for `c3_groups_by_list_id` at the concrete state `dbW`. -/
theorem c3_groups_by_list_id_witness :
    ("gw" ∈ Db.get_groups_by_list_id dbW 2 ↔
      ∃ g ∈ dbW.groups, g.wxid = "gw" ∧
        ∃ gl ∈ dbW.group_lists, gl.group_wxid = g.wxid ∧ gl.list_id = 2) ∧
    (∃ g ∈ dbW.groups, g.wxid = "gw" ∧ g.allow_forward = true) :=
  ⟨(c3_groups_by_list_id dbW 2 "gw").1,
   (c3_groups_by_list_id dbW 2 "gw").2 [2] (by decide)⟩

/-! ## Dispatcher lemmas -/

theorem sendWithRetries_ok_first (deliver : Nat → Bool) (h : deliver 0 = true) :
    sendWithRetries deliver MAX_RETRIES 0 = (true, [0]) := by
  show sendWithRetries deliver (2 + 1) 0 = _
  simp [sendWithRetries, h]

theorem sendWithRetries_two_fails (deliver : Nat → Bool)
    (h0 : deliver 0 = false) (h1 : deliver 1 = false) (h2 : deliver 2 = true) :
    sendWithRetries deliver MAX_RETRIES 0 = (true, [0, 1, 2]) := by
  show sendWithRetries deliver (2 + 1) 0 = _
  simp [sendWithRetries, h0, h1, h2]

theorem processGroup_all_ok (deliver : String → Nat → Nat → Bool) (g : String)
    (msgs : List WxMsg) (h : ∀ mid, deliver g mid 0 = true) :
    processGroup deliver g msgs =
      (msgs.length, 0, [], msgs.map fun m => (g, m.id, 0)) := by
  induction msgs with
  | nil => rfl
  | cons m rest ih =>
    simp [processGroup, sendWithRetries_ok_first (deliver g m.id) (h m.id), ih]

theorem length_flatMap_eq {α : Type} (groups : List String) (msgs : List WxMsg)
    (f : String → WxMsg → α) :
    (groups.flatMap fun g => msgs.map (f g)).length =
      groups.length * msgs.length := by
  induction groups with
  | nil => simp
  | cons g rest ih =>
    simp only [List.flatMap_cons, List.length_append, List.length_map, ih,
      List.length_cons]
    ring

theorem processTaskGroups_all_ok (deliver : String → Nat → Nat → Bool)
    (msgs : List WxMsg) (groups : List String)
    (h : ∀ g mid, deliver g mid 0 = true) :
    processTaskGroups deliver msgs groups =
      (groups.length * msgs.length, 0, [],
        groups.flatMap fun g => msgs.map fun m => (g, m.id, 0)) := by
  induction groups with
  | nil => simp [processTaskGroups]
  | cons g rest ih =>
    simp only [processTaskGroups, processGroup_all_ok deliver g msgs (h g), ih]
    simp [List.flatMap_cons, Nat.succ_mul, Nat.add_comm]

theorem processGroup_calls_group (deliver : String → Nat → Nat → Bool)
    (g : String) (msgs : List WxMsg) :
    ∀ c ∈ (processGroup deliver g msgs).2.2.2, c.1 = g := by
  induction msgs with
  | nil =>
    intro c hc
    exact absurd hc (by simp [processGroup])
  | cons m rest ih =>
    intro c hc
    simp only [processGroup] at hc
    split at hc <;>
    · rw [List.mem_append] at hc
      rcases hc with hc | hc
      · obtain ⟨idx, _, he⟩ := List.mem_map.mp hc
        rw [← he]
      · exact ih c hc

theorem processGroup_calls_id_mem (deliver : String → Nat → Nat → Bool)
    (g : String) (msgs : List WxMsg) :
    ∀ c ∈ (processGroup deliver g msgs).2.2.2, c.2.1 ∈ msgs.map WxMsg.id := by
  induction msgs with
  | nil =>
    intro c hc
    exact absurd hc (by simp [processGroup])
  | cons m rest ih =>
    intro c hc
    simp only [processGroup] at hc
    split at hc <;>
    · rw [List.mem_append] at hc
      rcases hc with hc | hc
      · obtain ⟨idx, _, he⟩ := List.mem_map.mp hc
        rw [← he]
        simp
      · simp only [List.map_cons, List.mem_cons]
        exact Or.inr (ih c hc)

theorem processGroup_fails_id_mem (deliver : String → Nat → Nat → Bool)
    (g : String) (msgs : List WxMsg) :
    ∀ pf ∈ (processGroup deliver g msgs).2.2.1, pf.msg_id ∈ msgs.map WxMsg.id := by
  induction msgs with
  | nil =>
    intro pf hpf
    exact absurd hpf (by simp [processGroup])
  | cons m rest ih =>
    intro pf hpf
    simp only [processGroup] at hpf
    split at hpf
    · simp only [List.map_cons, List.mem_cons]
      exact Or.inr (ih pf hpf)
    · rcases List.mem_cons.mp hpf with he | hpf2
      · rw [he]
        simp
      · simp only [List.map_cons, List.mem_cons]
        exact Or.inr (ih pf hpf2)

/-- For a pair whose retry loop succeeds, the group loop makes exactly the
    loop's attempts for that pair and records no failure for it (given the
    job's message ids are distinct). -/
theorem processGroup_pair (deliver : String → Nat → Nat → Bool) (g : String)
    (m0 : WxMsg) (msgs : List WxMsg)
    (hmnd : (msgs.map WxMsg.id).Nodup) (hm : m0 ∈ msgs)
    (hok : (sendWithRetries (deliver g m0.id) MAX_RETRIES 0).1 = true) :
    (processGroup deliver g msgs).2.2.2.filter (fun c => c.2.1 == m0.id) =
      (sendWithRetries (deliver g m0.id) MAX_RETRIES 0).2.map
        (fun idx => (g, m0.id, idx)) ∧
    ∀ pf ∈ (processGroup deliver g msgs).2.2.1, pf.msg_id ≠ m0.id := by
  induction msgs with
  | nil => exact absurd hm (List.not_mem_nil m0)
  | cons m rest ih =>
    simp only [List.map_cons, List.nodup_cons] at hmnd
    by_cases hem : m = m0
    · subst hem
      constructor
      · simp only [processGroup]
        rw [if_pos hok, List.filter_append]
        have hkeep : ((sendWithRetries (deliver g m.id) MAX_RETRIES 0).2.map
            fun idx => (g, m.id, idx)).filter (fun c => c.2.1 == m.id) =
            (sendWithRetries (deliver g m.id) MAX_RETRIES 0).2.map
              fun idx => (g, m.id, idx) := by
          rw [List.filter_eq_self]
          intro c hc
          obtain ⟨idx, _, he⟩ := List.mem_map.mp hc
          rw [← he]
          simp
        have hdrop : (processGroup deliver g rest).2.2.2.filter
            (fun c => c.2.1 == m.id) = [] := by
          rw [List.filter_eq_nil_iff]
          intro c hc hpc
          have hcm := processGroup_calls_id_mem deliver g rest c hc
          rw [beq_iff_eq] at hpc
          rw [hpc] at hcm
          exact hmnd.1 hcm
        rw [hkeep, hdrop, List.append_nil]
      · intro pf hpf
        simp only [processGroup] at hpf
        rw [if_pos hok] at hpf
        have hcm := processGroup_fails_id_mem deliver g rest pf hpf
        intro he
        rw [he] at hcm
        exact hmnd.1 hcm
    · have hm0r : m0 ∈ rest := (List.mem_cons.mp hm).resolve_left
        fun he => hem he.symm
      have hid_ne : m.id ≠ m0.id := by
        intro he
        exact hmnd.1 (he ▸ List.mem_map.mpr ⟨m0, hm0r, rfl⟩)
      obtain ⟨ihA, ihB⟩ := ih hmnd.2 hm0r
      have hdrop : ((sendWithRetries (deliver g m.id) MAX_RETRIES 0).2.map
          fun idx => (g, m.id, idx)).filter (fun c => c.2.1 == m0.id) = [] := by
        rw [List.filter_eq_nil_iff]
        intro c hc hpc
        obtain ⟨idx, _, he⟩ := List.mem_map.mp hc
        rw [beq_iff_eq] at hpc
        rw [← he] at hpc
        exact hid_ne hpc
      constructor
      · simp only [processGroup]
        split <;>
          rw [List.filter_append, hdrop, List.nil_append, ihA]
      · intro pf hpf
        simp only [processGroup] at hpf
        split at hpf
        · exact ihB pf hpf
        · rcases List.mem_cons.mp hpf with he | hpf2
          · rw [he]
            intro hcon
            exact hid_ne hcon
          · exact ihB pf hpf2

theorem processTaskGroups_calls_group_mem (deliver : String → Nat → Nat → Bool)
    (msgs : List WxMsg) :
    ∀ (groups : List String),
      ∀ c ∈ (processTaskGroups deliver msgs groups).2.2.2, c.1 ∈ groups := by
  intro groups
  induction groups with
  | nil =>
    intro c hc
    exact absurd hc (by simp [processTaskGroups])
  | cons g rest ih =>
    intro c hc
    simp only [processTaskGroups] at hc
    rw [List.mem_append] at hc
    rcases hc with hc | hc
    · exact List.mem_cons.mpr (Or.inl (processGroup_calls_group deliver g msgs c hc))
    · exact List.mem_cons.mpr (Or.inr (ih c hc))

theorem processTaskGroups_fails_shape (deliver : String → Nat → Nat → Bool)
    (msgs : List WxMsg) :
    ∀ (groups : List String),
      ∀ gf ∈ (processTaskGroups deliver msgs groups).2.2.1,
        gf.group ∈ groups ∧
          gf.failures = (processGroup deliver gf.group msgs).2.2.1 := by
  intro groups
  induction groups with
  | nil =>
    intro gf hgf
    exact absurd hgf (by simp [processTaskGroups])
  | cons g rest ih =>
    intro gf hgf
    simp only [processTaskGroups] at hgf
    split at hgf
    · obtain ⟨hmem, hfl⟩ := ih gf hgf
      exact ⟨List.mem_cons.mpr (Or.inr hmem), hfl⟩
    · rcases List.mem_cons.mp hgf with he | hgf2
      · constructor
        · rw [he]
          exact List.mem_cons.mpr (Or.inl rfl)
        · rw [he]
      · obtain ⟨hmem, hfl⟩ := ih gf hgf2
        exact ⟨List.mem_cons.mpr (Or.inr hmem), hfl⟩

theorem processTaskGroups_pair_filter (deliver : String → Nat → Nat → Bool)
    (msgs : List WxMsg) (g0 : String) (m0 : WxMsg) :
    ∀ (groups : List String), groups.Nodup → g0 ∈ groups →
      (processTaskGroups deliver msgs groups).2.2.2.filter
          (fun c => c.1 == g0 && c.2.1 == m0.id) =
        (processGroup deliver g0 msgs).2.2.2.filter
          (fun c => c.2.1 == m0.id) := by
  intro groups
  induction groups with
  | nil =>
    intro _ hg
    exact absurd hg (List.not_mem_nil g0)
  | cons g rest ih =>
    intro hnd hg
    simp only [List.nodup_cons] at hnd
    simp only [processTaskGroups]
    rw [List.filter_append]
    by_cases heg : g = g0
    · subst heg
      have hdrop : (processTaskGroups deliver msgs rest).2.2.2.filter
          (fun c => c.1 == g && c.2.1 == m0.id) = [] := by
        rw [List.filter_eq_nil_iff]
        intro c hc hpc
        have hcg := processTaskGroups_calls_group_mem deliver msgs rest c hc
        rw [Bool.and_eq_true, beq_iff_eq] at hpc
        rw [hpc.1] at hcg
        exact hnd.1 hcg
      have hsame : (processGroup deliver g msgs).2.2.2.filter
          (fun c => c.1 == g && c.2.1 == m0.id) =
          (processGroup deliver g msgs).2.2.2.filter
            (fun c => c.2.1 == m0.id) := by
        apply List.filter_congr
        intro c hc
        have hcg := processGroup_calls_group deliver g msgs c hc
        simp [hcg]
      rw [hsame, hdrop, List.append_nil]
    · have hg0r : g0 ∈ rest := (List.mem_cons.mp hg).resolve_left
        fun he => heg he.symm
      have hdrop : (processGroup deliver g msgs).2.2.2.filter
          (fun c => c.1 == g0 && c.2.1 == m0.id) = [] := by
        rw [List.filter_eq_nil_iff]
        intro c hc hpc
        have hcg := processGroup_calls_group deliver g msgs c hc
        rw [Bool.and_eq_true, beq_iff_eq] at hpc
        rw [hcg] at hpc
        exact heg hpc.1
      rw [hdrop, List.nil_append, ih hnd.2 hg0r]

/-! ## C8: M x K invocations, group-major message-minor -/

/-- C8: when every delivery succeeds on the first try, the dispatcher makes
    exactly M x K Delivery Adapter invocations, ordered group-major and
    message-minor, and counts M x K successes and no failure. -/
theorem c8_dispatch_order (deliver : String → Nat → Nat → Bool)
    (task : ForwardTask) (h : ∀ g mid, deliver g mid 0 = true) :
    (processTask deliver task).calls =
      task.groups.flatMap (fun g => task.messages.map fun m => (g, m.id, 0)) ∧
    (processTask deliver task).calls.length =
      task.groups.length * task.messages.length ∧
    (processTask deliver task).success_count =
      task.groups.length * task.messages.length ∧
    (processTask deliver task).failed_count = 0 := by
  have hp := processTaskGroups_all_ok deliver task.messages task.groups h
  have hcalls : (processTask deliver task).calls =
      task.groups.flatMap (fun g => task.messages.map fun m => (g, m.id, 0)) := by
    simp [processTask, hp]
  refine ⟨hcalls, ?_, ?_, ?_⟩
  · rw [hcalls]
    exact length_flatMap_eq task.groups task.messages _
  · simp [processTask, hp]
  · simp [processTask, hp]

/-- Witness for `c8_dispatch_order`: one message, one group, an adapter that
    always succeeds. -/
theorem c8_dispatch_order_witness :
    (processTask (fun _ _ _ => true) ⟨[msgW "hello"], ["gw"], "op1"⟩).calls =
      (["gw"] : List String).flatMap
        (fun g => [msgW "hello"].map fun m => (g, m.id, 0)) ∧
    (processTask (fun _ _ _ => true) ⟨[msgW "hello"], ["gw"], "op1"⟩).calls.length =
      (["gw"] : List String).length * [msgW "hello"].length ∧
    (processTask (fun _ _ _ => true)
        ⟨[msgW "hello"], ["gw"], "op1"⟩).success_count =
      (["gw"] : List String).length * [msgW "hello"].length ∧
    (processTask (fun _ _ _ => true) ⟨[msgW "hello"], ["gw"], "op1"⟩).failed_count =
      0 :=
  c8_dispatch_order (fun _ _ _ => true) ⟨[msgW "hello"], ["gw"], "op1"⟩
    (fun _ _ => rfl)

/-! ## C9: a pair that fails twice then succeeds -/

/-- C9: for a (group, message) pair whose delivery fails exactly twice and
    then succeeds, the dispatcher's retry loop makes exactly 3 attempts and
    reports success; in the whole job the pair is invoked exactly at attempt
    indices 0, 1, 2 and never appears in the failure breakdown. -/
theorem c9_two_fails_then_success (deliver : String → Nat → Nat → Bool)
    (g0 : String) (m0 : WxMsg) (msgs : List WxMsg) (groups : List String)
    (op : String)
    (h0 : deliver g0 m0.id 0 = false) (h1 : deliver g0 m0.id 1 = false)
    (h2 : deliver g0 m0.id 2 = true)
    (hg : g0 ∈ groups) (hm : m0 ∈ msgs)
    (hgnd : groups.Nodup) (hmnd : (msgs.map WxMsg.id).Nodup) :
    sendWithRetries (deliver g0 m0.id) MAX_RETRIES 0 = (true, [0, 1, 2]) ∧
    (processTask deliver ⟨msgs, groups, op⟩).calls.filter
        (fun c => c.1 == g0 && c.2.1 == m0.id) =
      [(g0, m0.id, 0), (g0, m0.id, 1), (g0, m0.id, 2)] ∧
    ∀ gf ∈ (processTask deliver ⟨msgs, groups, op⟩).failed_messages,
      gf.group = g0 → ∀ pf ∈ gf.failures, pf.msg_id ≠ m0.id := by
  have hsr := sendWithRetries_two_fails (deliver g0 m0.id) h0 h1 h2
  have hok : (sendWithRetries (deliver g0 m0.id) MAX_RETRIES 0).1 = true := by
    rw [hsr]
  obtain ⟨hA, hB⟩ := processGroup_pair deliver g0 m0 msgs hmnd hm hok
  refine ⟨hsr, ?_, ?_⟩
  · show (processTaskGroups deliver msgs groups).2.2.2.filter _ = _
    rw [processTaskGroups_pair_filter deliver msgs g0 m0 groups hgnd hg, hA, hsr]
    rfl
  · intro gf hgf hgeq pf hpf
    have hshape := processTaskGroups_fails_shape deliver msgs groups gf hgf
    rw [hgeq] at hshape
    rw [hshape.2] at hpf
    exact hB pf hpf

/-- Witness for `c9_two_fails_then_success`: an adapter that succeeds only at
    the third attempt, one group, one message. -/
theorem c9_two_fails_then_success_witness :
    sendWithRetries ((fun _ _ a => a == 2) "gw" (msgW "hello").id)
        MAX_RETRIES 0 = (true, [0, 1, 2]) ∧
    (processTask (fun _ _ a => a == 2)
        ⟨[msgW "hello"], ["gw"], "op1"⟩).calls.filter
        (fun c => c.1 == "gw" && c.2.1 == (msgW "hello").id) =
      [("gw", (msgW "hello").id, 0), ("gw", (msgW "hello").id, 1),
        ("gw", (msgW "hello").id, 2)] ∧
    ∀ gf ∈ (processTask (fun _ _ a => a == 2)
        ⟨[msgW "hello"], ["gw"], "op1"⟩).failed_messages,
      gf.group = "gw" → ∀ pf ∈ gf.failures, pf.msg_id ≠ (msgW "hello").id :=
  c9_two_fails_then_success (fun _ _ a => a == 2) "gw" (msgW "hello")
    [msgW "hello"] ["gw"] "op1" rfl rfl rfl (by decide) (by decide)
    (by decide) (by decide)

/-! ## C5: refresh against a throwing source -/

/-- C5: a refresh against a directory source that throws leaves every
    directory-cache query -- isAdmin, groupsForList, the selection
    resolution, allForwardableGroups -- returning results identical to their
    pre-refresh values: the failed fetch returns `False` and writes neither
    the cache file nor the database. -/
theorem c5_refresh_error_preserves_cache (r : Robot) (e : String) (w : String)
    (i : Int) (sel : List Int) :
    (r.fetch_notion_data (.error e)).1 = false ∧
    (r.fetch_notion_data (.error e)).2 = r ∧
    (r.sync_data_from_notion (.error e)).db = r.db ∧
    (r.sync_data_from_notion (.error e)).notion_cache = r.notion_cache ∧
    (r.sync_data_from_notion (.error e)).isAdmin w = r.isAdmin w ∧
    (r.sync_data_from_notion (.error e)).db.get_groups_by_list_id i =
      r.db.get_groups_by_list_id i ∧
    (r.sync_data_from_notion (.error e)).db.resolveSelection sel =
      r.db.resolveSelection sel ∧
    (r.sync_data_from_notion (.error e)).db.resolveAllGroups =
      r.db.resolveAllGroups := by
  refine ⟨rfl, rfl, rfl, rfl, rfl, rfl, rfl, rfl⟩

end WeChatRobot
